import Mathlib

/-!
Verification of the flash-railway payroll core: a shallow embedding of the
report engines in src/erp/backend/app/api/routes/payroll.py and payroll2.py,
together with theorems settling the specification claims.

Conventions of the embedding:
* Python ints are Lean Int, Python floats are Lean Rat (the engines only add,
  subtract, multiply and divide decimal amounts, so exact rationals model the
  computed expressions faithfully).
* Nullable columns are Option values; Python truthiness of a nullable number
  is a dedicated predicate (None and 0 are falsy).
* Database query results are lists in store order; dict building with
  composite keys is modelled by filter plus getLast? (last write wins).
* Raising HTTPException is modelled by Except with a PErr value; an uncaught
  ValueError (possible in month parsing for out-of-range years) is a distinct
  PErr constructor.
-/

set_option maxRecDepth 8000

namespace FlashPayroll

/-- Python `a or b` on an optional string: None and the empty string are falsy. -/
def pyOrStr (v : Option String) (d : String) : String :=
  match v with
  | none => d
  | some s => if s = "" then d else s

/-- Python truthiness of a nullable string column. -/
def truthyS (v : Option String) : Bool :=
  match v with
  | none => false
  | some s => s ≠ ""

/-- Python truthiness of a nullable integer column: None and 0 are falsy. -/
def truthyI (v : Option Int) : Bool :=
  match v with
  | none => false
  | some n => n ≠ 0

/-- Python truthiness of a nullable numeric column: None and 0 are falsy. -/
def truthyQ (v : Option Rat) : Bool :=
  match v with
  | none => false
  | some q => q ≠ 0

/-- Whitespace trim of a character list (model of Python str.strip). -/
def charTrim (cs : List Char) : List Char :=
  ((cs.dropWhile Char.isWhitespace).reverse.dropWhile Char.isWhitespace).reverse

/-- Python str.strip(). -/
def pyStrip (s : String) : String := String.mk (charTrim s.data)

/-- Python str.lower(). -/
def pyLower (s : String) : String := String.mk (s.data.map Char.toLower)

/-- Python `.lower().strip()` applied to a string. -/
def normLS (s : String) : String := pyStrip (pyLower s)

/-- Splitting a character list at each dash (model of str.split("-")). -/
def splitDashChars : List Char → List Char → List (List Char)
  | [], cur => [cur.reverse]
  | c :: rest, cur =>
    if c = '-' then cur.reverse :: splitDashChars rest []
    else splitDashChars rest (c :: cur)

/-- Python s.split("-"). -/
def splitDash (s : String) : List String := (splitDashChars s.data []).map String.mk

/-- Decimal value of a digit list. -/
def digitsVal (cs : List Char) : Nat :=
  cs.foldl (fun n c => n * 10 + (c.toNat - 48)) 0

/-- Model of Python int(str): surrounding whitespace stripped, optional sign,
then decimal digits; anything else raises (returns none). -/
def pyInt? (s : String) : Option Int :=
  match charTrim s.data with
  | [] => none
  | c :: rest =>
    if c = '-' then
      if rest ≠ [] ∧ rest.all Char.isDigit then some (-(digitsVal rest : Int)) else none
    else if c = '+' then
      if rest ≠ [] ∧ rest.all Char.isDigit then some (digitsVal rest) else none
    else
      if (c :: rest).all Char.isDigit then some (digitsVal (c :: rest)) else none

/-- Fractional value of the digits after a decimal point. -/
def fracVal (cs : List Char) : Rat :=
  cs.foldr (fun c q => (((c.toNat - 48 : Nat) : Rat) + q) / 10) 0

/-- Model of Python float(str) for plain decimal literals: optional sign,
integer part and/or fractional part. -/
def pyFloat? (s : String) : Option Rat :=
  let sb : Rat × List Char :=
    match charTrim s.data with
    | '-' :: rest => (-1, rest)
    | '+' :: rest => (1, rest)
    | cs => (1, cs)
  let ip := sb.2.takeWhile (fun c => c ≠ '.')
  match sb.2.dropWhile (fun c => c ≠ '.') with
  | [] =>
    if ip ≠ [] ∧ ip.all Char.isDigit then some (sb.1 * (digitsVal ip : Rat)) else none
  | _ :: fp =>
    if (ip ≠ [] ∨ fp ≠ []) ∧ ip.all Char.isDigit ∧ fp.all Char.isDigit then
      some (sb.1 * ((digitsVal ip : Rat) + fracVal fp))
    else none

/-- The `_to_float` helper: lenient parse of a salary text, defaulting to 0
for None, empty, or unparseable input. -/
def toFloat (v : Option String) : Rat :=
  match v with
  | none => 0
  | some s => if charTrim s.data = [] then 0 else (pyFloat? s).getD 0

/-- A Python datetime.date value (fields as produced by the parsers below). -/
structure PDate where
  year : Int
  month : Int
  day : Int
deriving DecidableEq

/-- Gregorian leap year test (calendar.isleap). -/
def isLeap (y : Int) : Bool := y % 4 == 0 && (y % 100 != 0 || y % 400 == 0)

/-- Number of days of a month (second component of calendar.monthrange). -/
def daysInMonth (y m : Int) : Int :=
  if m = 2 then (if isLeap y then 29 else 28)
  else if m = 4 ∨ m = 6 ∨ m = 9 ∨ m = 11 then 30
  else 31

/-- Day number of a civil date (standard days-from-civil algorithm); Python
date ordering and subtraction coincide with ordinal ordering and difference. -/
def toOrdinal (d : PDate) : Int :=
  let y := if d.month ≤ 2 then d.year - 1 else d.year
  let era := (if 0 ≤ y then y else y - 399) / 400
  let yoe := y - era * 400
  let mp := (d.month + 9) % 12
  let doy := (153 * mp + 2) / 5 + d.day - 1
  let doe := yoe * 365 + yoe / 4 - yoe / 100 + doy
  era * 146097 + doe

/-- Python date comparison a <= b. -/
def pyDateLe (a b : PDate) : Bool := toOrdinal a ≤ toOrdinal b

/-- Python date comparison a < b. -/
def pyDateLt (a b : PDate) : Bool := toOrdinal a < toOrdinal b

/-- The `_days_inclusive` helper: (end - start).days + 1. -/
def daysInclusive (a b : PDate) : Int := toOrdinal b - toOrdinal a + 1

/-- Successor day (the `dcur + timedelta(days=1)` step of the range walk). -/
def nextDay (d : PDate) : PDate :=
  if d.day < daysInMonth d.year d.month then ⟨d.year, d.month, d.day + 1⟩
  else if d.month < 12 then ⟨d.year, d.month + 1, 1⟩
  else ⟨d.year + 1, 1, 1⟩

/-- The list of days visited by the range walk, starting at d, n days long. -/
def dateRange (d : PDate) : Nat → List PDate
  | 0 => []
  | n + 1 => d :: dateRange (nextDay d) n

/-- The `_last_day_of_month` helper. -/
def lastDayOfMonth (d : PDate) : PDate := ⟨d.year, d.month, daysInMonth d.year d.month⟩

/-- Zero-padded decimal rendering of a nonnegative number, f-string style. -/
def padNum (w : Nat) (n : Int) : String :=
  let s := toString n
  if w ≤ s.length then s else String.mk (List.replicate (w - s.length) '0') ++ s

/-- The `_month_label` helper: YYYY-MM. -/
def monthLabel (d : PDate) : String := padNum 4 d.year ++ "-" ++ padNum 2 d.month

/-- ISO rendering of a date: YYYY-MM-DD. -/
def isoDate (d : PDate) : String :=
  padNum 4 d.year ++ "-" ++ padNum 2 d.month ++ "-" ++ padNum 2 d.day

/-- English month abbreviation (strftime %b). -/
def monthAbbrev (m : Int) : String :=
  if m = 1 then "Jan" else if m = 2 then "Feb" else if m = 3 then "Mar"
  else if m = 4 then "Apr" else if m = 5 then "May" else if m = 6 then "Jun"
  else if m = 7 then "Jul" else if m = 8 then "Aug" else if m = 9 then "Sep"
  else if m = 10 then "Oct" else if m = 11 then "Nov" else "Dec"

/-- strftime("%d %b"). -/
def fmtDayMonth (d : PDate) : String := padNum 2 d.day ++ " " ++ monthAbbrev d.month

/-- Request-rejection errors: http models raising HTTPException(400, detail);
valueError models an uncaught ValueError escaping the handler. -/
inductive PErr where
  | http (detail : String)
  | valueError
deriving DecidableEq

/-- The `_parse_date` helper: split on "-" into three ints and build a date;
any failure (including an invalid calendar date) is caught and reported as a
format error. -/
def parseDate (s : String) (field : String) : Except PErr PDate :=
  match splitDash s with
  | [ys, ms, ds] =>
    match pyInt? ys, pyInt? ms, pyInt? ds with
    | some y, some m, some d =>
      if 1 ≤ y ∧ y ≤ 9999 ∧ 1 ≤ m ∧ m ≤ 12 ∧ 1 ≤ d ∧ d ≤ daysInMonth y m then
        .ok ⟨y, m, d⟩
      else .error (.http (field ++ " must be in YYYY-MM-DD format"))
    | _, _, _ => .error (.http (field ++ " must be in YYYY-MM-DD format"))
  | _ => .error (.http (field ++ " must be in YYYY-MM-DD format"))

/-- The `_parse_month` helper. The try block covers the split, the int
conversions and the 1..12 month check; monthrange and the two date
constructions happen outside it, so a year outside Python date range
(1..9999) escapes as an uncaught ValueError rather than the 400 error. -/
def parseMonth (month : String) : Except PErr (PDate × PDate) :=
  match splitDash month with
  | [ys, ms] =>
    match pyInt? ys, pyInt? ms with
    | some y, some mm =>
      if mm < 1 ∨ mm > 12 then .error (.http "month must be in YYYY-MM format")
      else if y < 1 ∨ y > 9999 then .error .valueError
      else .ok (⟨y, mm, 1⟩, ⟨y, mm, daysInMonth y mm⟩)
    | _, _ => .error (.http "month must be in YYYY-MM format")
  | _ => .error (.http "month must be in YYYY-MM format")

/-! ## Data model (the columns the payroll engines read or write) -/

/-- Employee2 row (only the columns the payroll engines consume). created_at
is kept at day granularity: the eligibility cutoff combines the period end
with time.max, so a datetime passes iff its calendar date is at most the
period end. -/
structure Employee where
  id : Nat
  serial_no : Option String
  fss_no : Option String
  eobi_no : Option String
  name : Option String
  category : Option String
  salary : Option String
  created_at : Option PDate
deriving DecidableEq

/-- AttendanceRecord row (the columns the payroll engines consume). -/
structure AttendanceRecord where
  employee_id : Option String
  date : PDate
  status : Option String
  leave_type : Option String
  overtime_minutes : Option Int
  overtime_rate : Option Rat
  late_minutes : Option Int
  late_deduction : Option Rat
  fine_amount : Option Rat
deriving DecidableEq

/-- PayrollSheetEntry row (per-period manual overrides). -/
structure PayrollSheetEntry where
  employee_db_id : Nat
  from_date : PDate
  to_date : PDate
  pre_days_override : Option Int
  cur_days_override : Option Int
  leave_encashment_days : Option Int
  allow_other : Option Rat
  eobi : Option Rat
  tax : Option Rat
  fine_adv_extra : Option Rat
  remarks : Option String
  bank_cash : Option String
deriving DecidableEq

/-- EmployeeAdvanceDeduction row. -/
structure AdvanceDeduction where
  employee_db_id : Nat
  month : String
  amount : Option Rat
deriving DecidableEq

/-- PayrollPaymentStatus row. -/
structure PaymentStatus where
  month : String
  employee_id : String
  status : Option String
  employee_db_id : Option Nat
  net_pay_snapshot : Option Rat
deriving DecidableEq

/-- The record store visible to the payroll endpoints; query results preserve
list (store) order. -/
structure DB where
  employees : List Employee
  attendance : List AttendanceRecord
  sheets : List PayrollSheetEntry
  advances : List AdvanceDeduction
  paymentStatuses : List PaymentStatus
deriving DecidableEq

/-! ## Query models -/

/-- Hire-cutoff filter: created_at is null or at most end of the period. -/
def eligible (endD : PDate) (e : Employee) : Bool :=
  match e.created_at with
  | none => true
  | some d => pyDateLe d endD

/-- Attendance restricted to the period (the date range filter of the query). -/
def attInRange (atts : List AttendanceRecord) (startD endD : PDate) : List AttendanceRecord :=
  atts.filter (fun a => pyDateLe startD a.date && pyDateLe a.date endD)

/-- The month engine's by_emp grouping: the records of one raw employee_id,
in store order. -/
def monthAttFor (atts : List AttendanceRecord) (empId : String) : List AttendanceRecord :=
  atts.filter (fun a => a.employee_id == some empId)

/-- The range engines' by_emp_by_date dict: key is the stripped employee_id
with None as empty, value per date is the last record written. -/
def attLookup (atts : List AttendanceRecord) (empId : String) (d : PDate) :
    Option AttendanceRecord :=
  ((atts.filter (fun a => pyStrip (pyOrStr a.employee_id "") == empId)).filter
    (fun a => decide (a.date = d))).getLast?

/-- The sheet_by_emp_db_id dict: entries whose period matches exactly, keyed
by employee_db_id, last write wins. -/
def sheetLookup (sheets : List PayrollSheetEntry) (startD endD : PDate) (empDbId : Nat) :
    Option PayrollSheetEntry :=
  ((sheets.filter (fun r => decide (r.from_date = startD) && decide (r.to_date = endD))).filter
    (fun r => decide (r.employee_db_id = empDbId))).getLast?

/-- The advance_ded_by_emp_db_id dict plus its defaulting lookup. -/
def advanceLookup (advs : List AdvanceDeduction) (label : String) (empDbId : Nat) : Rat :=
  match ((advs.filter (fun r => r.month == label)).filter
      (fun r => decide (r.employee_db_id = empDbId))).getLast? with
  | none => 0
  | some r => r.amount.getD 0

/-- The paid_status_by_emp dict plus its defaulting lookup. -/
def statusLookup (stats : List PaymentStatus) (label : String) (empId : String) : String :=
  match ((stats.filter (fun r => r.month == label)).filter
      (fun r => r.employee_id == empId)).getLast? with
  | none => "unpaid"
  | some r => pyOrStr r.status "unpaid"

/-! ## Ordering of report rows -/

/-- Stable insertion of x into a list: before the first element strictly
greater under lt. Folding this over the input reproduces the result of a
stable sort such as Python sorted. -/
def insertByLt (lt : α → α → Bool) (x : α) : List α → List α
  | [] => [x]
  | y :: ys => if lt x y then x :: y :: ys else y :: insertByLt lt x ys

/-- Stable sort by the strict comparison lt. -/
def sortByLt (lt : α → α → Bool) (l : List α) : List α :=
  l.foldl (fun acc x => insertByLt lt x acc) []

/-- The range engines' sort_key: int(serial_no or 0), with 999999 for a
serial number that does not parse as an integer. -/
def serialKey (s : Option String) : Int :=
  if truthyS s then
    match pyInt? (s.getD "") with
    | some n => n
    | none => 999999
  else 0

/-- Numeric sort comparison of employees in the range engines. -/
def empLt (a b : Employee) : Bool := decide (serialKey a.serial_no < serialKey b.serial_no)

/-- Byte-wise lexicographic strict order on strings (store string collation). -/
def strLtB : List Char → List Char → Bool
  | [], [] => false
  | [], _ :: _ => true
  | _ :: _, [] => false
  | a :: as, b :: bs =>
    if a.toNat < b.toNat then true else if b.toNat < a.toNat then false else strLtB as bs

/-- The month engine's order_by(serial_no.asc()): string ascending with NULL
first. -/
def serialStrLt (a b : Employee) : Bool :=
  match a.serial_no, b.serial_no with
  | none, none => false
  | none, some _ => true
  | some _, none => false
  | some x, some y => strLtB x.data y.data

/-! ## Attendance aggregation -/

/-- Per-employee attendance accumulator (the loop locals of each engine). -/
structure AttAcc where
  present_days : Int := 0
  late_days : Int := 0
  absent_days : Int := 0
  paid_leave_days : Int := 0
  unpaid_leave_days : Int := 0
  unmarked_days : Int := 0
  overtime_minutes : Int := 0
  overtime_pay : Rat := 0
  overtime_rate : Rat := 0
  late_minutes : Int := 0
  late_deduction : Rat := 0
  fine_deduction : Rat := 0
deriving DecidableEq

/-- All-zero accumulator. -/
def initAcc : AttAcc := {}

/-- Overtime and lateness updates shared by every engine: overtime accrues
only when minutes and rate are both truthy; the displayed overtime rate is
the latest strictly positive rate; late minutes and the late deduction
accrue on their own truthiness. -/
def stepMoneyCore (a : AttendanceRecord) (acc : AttAcc) : AttAcc :=
  let acc1 :=
    if truthyI a.overtime_minutes && truthyQ a.overtime_rate then
      { acc with
        overtime_minutes := acc.overtime_minutes + a.overtime_minutes.getD 0,
        overtime_pay :=
          acc.overtime_pay + ((a.overtime_minutes.getD 0 : Rat) / 60) * a.overtime_rate.getD 0 }
    else acc
  let acc2 :=
    if truthyQ a.overtime_rate && decide (0 < a.overtime_rate.getD 0) then
      { acc1 with overtime_rate := a.overtime_rate.getD 0 }
    else acc1
  let acc3 :=
    if truthyI a.late_minutes then
      { acc2 with late_minutes := acc2.late_minutes + a.late_minutes.getD 0 }
    else acc2
  if truthyQ a.late_deduction then
    { acc3 with late_deduction := acc3.late_deduction + a.late_deduction.getD 0 }
  else acc3

/-- Fine accrual (range engines only). -/
def stepFine (a : AttendanceRecord) (acc : AttAcc) : AttAcc :=
  if truthyQ a.fine_amount then
    { acc with fine_deduction := acc.fine_deduction + a.fine_amount.getD 0 }
  else acc

/-- Day-category counting of the payroll.py range walk: a missing record (or
a record with a blank status) is "unmarked", and any unrecognized status
falls into the unmarked bucket as well. -/
def stepCount1 (a? : Option AttendanceRecord) (acc : AttAcc) : AttAcc :=
  let st :=
    match a? with
    | some a => normLS (pyOrStr a.status "unmarked")
    | none => "unmarked"
  if st = "present" then { acc with present_days := acc.present_days + 1 }
  else if st = "late" then { acc with late_days := acc.late_days + 1 }
  else if st = "absent" then { acc with absent_days := acc.absent_days + 1 }
  else if st = "leave" then
    match a? with
    | some a =>
      if normLS (pyOrStr a.leave_type "") = "unpaid" then
        { acc with unpaid_leave_days := acc.unpaid_leave_days + 1 }
      else { acc with paid_leave_days := acc.paid_leave_days + 1 }
    | none => { acc with paid_leave_days := acc.paid_leave_days + 1 }
  else { acc with unmarked_days := acc.unmarked_days + 1 }

/-- One day of the payroll.py range walk. -/
def stepRange1 (a? : Option AttendanceRecord) (acc : AttAcc) : AttAcc :=
  let acc1 := stepCount1 a? acc
  match a? with
  | none => acc1
  | some a => stepFine a (stepMoneyCore a acc1)

/-- One record of the calendar-month engine: only the four recognized
statuses are counted, everything else (and every day without a record, which
is never visited) is ignored. -/
def stepMonth (acc : AttAcc) (a : AttendanceRecord) : AttAcc :=
  let st := normLS (pyOrStr a.status "")
  let acc1 :=
    if st = "present" then { acc with present_days := acc.present_days + 1 }
    else if st = "late" then { acc with late_days := acc.late_days + 1 }
    else if st = "absent" then { acc with absent_days := acc.absent_days + 1 }
    else if st = "leave" then
      if normLS (pyOrStr a.leave_type "") = "unpaid" then
        { acc with unpaid_leave_days := acc.unpaid_leave_days + 1 }
      else { acc with paid_leave_days := acc.paid_leave_days + 1 }
    else acc
  stepMoneyCore a acc1

/-- One day of the payroll2 range walk: a day without a record contributes
nothing, and there is no unmarked counter. -/
def stepRange2 (a? : Option AttendanceRecord) (acc : AttAcc) : AttAcc :=
  match a? with
  | none => acc
  | some a =>
    let st := normLS (pyOrStr a.status "")
    let acc1 :=
      if st = "present" then { acc with present_days := acc.present_days + 1 }
      else if st = "late" then { acc with late_days := acc.late_days + 1 }
      else if st = "absent" then { acc with absent_days := acc.absent_days + 1 }
      else if st = "leave" then
        if normLS (pyOrStr a.leave_type "") = "unpaid" then
          { acc with unpaid_leave_days := acc.unpaid_leave_days + 1 }
        else { acc with paid_leave_days := acc.paid_leave_days + 1 }
      else acc
    stepFine a (stepMoneyCore a acc1)

/-- The per-day record sequence an employee sees over the walked dates. -/
def attSeq (atts : List AttendanceRecord) (empId : String) (dates : List PDate) :
    List (Option AttendanceRecord) :=
  dates.map (attLookup atts empId)

/-- Aggregate of the payroll.py range walk. -/
def aggRange1 (atts : List AttendanceRecord) (empId : String) (dates : List PDate) : AttAcc :=
  (attSeq atts empId dates).foldl (fun acc a? => stepRange1 a? acc) initAcc

/-- Aggregate of the payroll2 range walk. -/
def aggRange2 (atts : List AttendanceRecord) (empId : String) (dates : List PDate) : AttAcc :=
  (attSeq atts empId dates).foldl (fun acc a? => stepRange2 a? acc) initAcc

/-- Aggregate of the calendar-month engine over an employee's records. -/
def aggMonth (atts : List AttendanceRecord) (empId : String) : AttAcc :=
  (monthAttFor atts empId).foldl stepMonth initAcc

/-- payroll2's present-date tooltip accumulation for one day: present and
late days are formatted and appended to the current-month or previous-month
list depending on the day's month. -/
def stepDates2 (endMonth : Int) (pc : List String × List String)
    (da : PDate × Option AttendanceRecord) : List String × List String :=
  match da.2 with
  | none => pc
  | some a =>
    let st := normLS (pyOrStr a.status "")
    if st = "present" then
      let ds := fmtDayMonth da.1
      if da.1.month = endMonth then (pc.1, pc.2 ++ [ds]) else (pc.1 ++ [ds], pc.2)
    else if st = "late" then
      let ds := fmtDayMonth da.1 ++ " (L)"
      if da.1.month = endMonth then (pc.1, pc.2 ++ [ds]) else (pc.1 ++ [ds], pc.2)
    else pc

/-- payroll2's present-date tooltip lists (previous month, current month). -/
def presentDates2 (atts : List AttendanceRecord) (empId : String) (dates : List PDate)
    (endMonth : Int) : List String × List String :=
  ((dates.zip (attSeq atts empId dates)).foldl (stepDates2 endMonth) ([], []))

/-! ## Calendar-month report (payroll.py payroll_report) -/

/-- A row of the calendar-month report. -/
structure MonthRow where
  employee_db_id : Nat
  employee_id : String
  name : String
  department : String
  shift_type : String
  serial_no : Option String
  fss_no : Option String
  eobi_no : Option String
  base_salary : Rat
  allowances : Rat
  present_days : Int
  late_days : Int
  absent_days : Int
  paid_leave_days : Int
  unpaid_leave_days : Int
  overtime_minutes : Int
  overtime_pay : Rat
  overtime_rate : Rat
  late_minutes : Int
  late_deduction : Rat
  unpaid_leave_deduction : Rat
  advance_deduction : Rat
  gross_pay : Rat
  net_pay : Rat
  paid_status : String
deriving DecidableEq

/-- Report summary (month, employee count, totals). -/
structure SummaryM where
  month : String
  employees : Nat
  total_gross : Rat
  total_net : Rat
deriving DecidableEq

/-- Calendar-month report response. -/
structure ReportM where
  month : String
  summary : SummaryM
  rows : List MonthRow
deriving DecidableEq

/-- One employee's row of the calendar-month report. The sheet entries are
queried by the endpoint but never consulted, so they are not an input here. -/
def rowMonth (label : String) (atts : List AttendanceRecord)
    (advs : List AdvanceDeduction) (stats : List PaymentStatus) (e : Employee) : MonthRow :=
  let employee_id := pyOrStr e.fss_no (pyOrStr e.serial_no (toString e.id))
  let base_salary := toFloat e.salary
  let allowances : Rat := 0
  let acc := aggMonth atts employee_id
  let unpaid_leave_deduction : Rat := (acc.unpaid_leave_days : Rat) * 1000
  let gross_pay := base_salary + allowances + acc.overtime_rate + acc.overtime_pay
  let adv_ded := advanceLookup advs label e.id
  let net_pay := gross_pay - acc.late_deduction - unpaid_leave_deduction - adv_ded
  { employee_db_id := e.id
    employee_id := employee_id
    name := pyOrStr e.name ""
    department := pyOrStr e.category "-"
    shift_type := "-"
    serial_no := e.serial_no
    fss_no := e.fss_no
    eobi_no := e.eobi_no
    base_salary := base_salary
    allowances := allowances
    present_days := acc.present_days
    late_days := acc.late_days
    absent_days := acc.absent_days
    paid_leave_days := acc.paid_leave_days
    unpaid_leave_days := acc.unpaid_leave_days
    overtime_minutes := acc.overtime_minutes
    overtime_pay := acc.overtime_pay
    overtime_rate := acc.overtime_rate
    late_minutes := acc.late_minutes
    late_deduction := acc.late_deduction
    unpaid_leave_deduction := unpaid_leave_deduction
    advance_deduction := adv_ded
    gross_pay := gross_pay
    net_pay := net_pay
    paid_status := statusLookup stats label employee_id }

/-- Calendar-month report body after month validation. -/
def buildMonth (startD endD : PDate) (label : String) (db : DB) : ReportM :=
  let atts := attInRange db.attendance startD endD
  let emps := sortByLt serialStrLt (db.employees.filter (eligible endD))
  let rows := emps.map (rowMonth label atts db.advances db.paymentStatuses)
  { month := label
    summary :=
      { month := label
        employees := rows.length
        total_gross := (rows.map (fun r => r.gross_pay)).sum
        total_net := (rows.map (fun r => r.net_pay)).sum }
    rows := rows }

/-- The payroll_report endpoint. -/
def payrollReport (month : String) (db : DB) : Except PErr ReportM :=
  match parseMonth month with
  | .error er => .error er
  | .ok (startD, endD) => .ok (buildMonth startD endD month db)

/-! ## Date-range report (payroll.py payroll_range_report) -/

/-- A row of the payroll.py date-range report. -/
structure Row1 where
  employee_db_id : Nat
  employee_id : String
  name : String
  department : String
  shift_type : String
  serial_no : Option String
  fss_no : Option String
  eobi_no : Option String
  base_salary : Rat
  allowances : Rat
  bank_name : Option String
  account_number : Option String
  working_days : Int
  day_rate : Rat
  payable_days : Int
  basic_earned : Rat
  pre_days : Int
  cur_days : Int
  leave_encashment_days : Int
  total_days : Int
  total_salary : Rat
  present_days : Int
  late_days : Int
  absent_days : Int
  paid_leave_days : Int
  unpaid_leave_days : Int
  unmarked_days : Int
  overtime_minutes : Int
  overtime_pay : Rat
  overtime_rate : Rat
  late_minutes : Int
  late_deduction : Rat
  late_rate : Rat
  fine_deduction : Rat
  allow_other : Rat
  eobi : Rat
  tax : Rat
  fine_adv_extra : Rat
  fine_adv : Rat
  remarks : Option String
  bank_cash : Option String
  unpaid_leave_deduction : Rat
  advance_deduction : Rat
  gross_pay : Rat
  net_pay : Rat
  paid_status : String
deriving DecidableEq

/-- Date-range report response of payroll.py. -/
structure Report1 where
  month : String
  summary : SummaryM
  rows : List Row1
deriving DecidableEq

/-- One employee's row of the payroll.py date-range report, given the sheet
override resolved for this employee (split out so that properties of the
override merge can be stated once). -/
def rowRange1Core (startD endD : PDate) (workingDays : Int) (label : String)
    (atts : List AttendanceRecord) (advs : List AdvanceDeduction)
    (stats : List PaymentStatus) (e : Employee) (sheet : Option PayrollSheetEntry) : Row1 :=
  let employee_id := pyStrip (pyOrStr e.fss_no (pyOrStr e.serial_no (toString e.id)))
  let base_salary := toFloat e.salary
  let allowances : Rat := 0
  let day_rate := if workingDays > 0 then base_salary / (workingDays : Rat) else 0
  let acc := aggRange1 atts employee_id (dateRange startD workingDays.toNat)
  let late_rate := if acc.late_minutes > 0 then acc.late_deduction / (acc.late_minutes : Rat) else 0
  let payable_days0 := acc.present_days + acc.late_days + acc.paid_leave_days
  let payable_days := if payable_days0 > workingDays then workingDays else payable_days0
  let presents_total := acc.present_days + acc.late_days
  let leave_encashment_days :=
    match sheet with | some s => s.leave_encashment_days.getD 0 | none => 0
  let pre_days0 := (sheet.bind (fun s => s.pre_days_override)).getD 0
  let cur_days0 := (sheet.bind (fun s => s.cur_days_override)).getD 0
  let pre_days := if pre_days0 < 0 then 0 else pre_days0
  let cur_days := if cur_days0 < 0 then 0 else cur_days0
  let total_days0 := presents_total + leave_encashment_days
  let total_days := if total_days0 < 0 then 0 else total_days0
  let total_salary := (total_days : Rat) * day_rate
  let allow_other := match sheet with | some s => s.allow_other.getD 0 | none => 0
  let eobi := match sheet with | some s => s.eobi.getD 0 | none => 0
  let tax := match sheet with | some s => s.tax.getD 0 | none => 0
  let fine_adv_extra := match sheet with | some s => s.fine_adv_extra.getD 0 | none => 0
  let remarks := sheet.bind (fun s => s.remarks)
  let bank_cash := sheet.bind (fun s => s.bank_cash)
  let adv_ded := advanceLookup advs label e.id
  let fine_adv := acc.fine_deduction + adv_ded + fine_adv_extra
  let unpaid_leave_deduction : Rat := 0
  let gross_pay := total_salary + acc.overtime_rate + acc.overtime_pay + allowances + allow_other
  let net_pay := gross_pay - eobi - tax - fine_adv - acc.late_deduction - unpaid_leave_deduction
  { employee_db_id := e.id
    employee_id := employee_id
    name := pyOrStr e.name ""
    department := pyOrStr e.category "-"
    shift_type := "-"
    serial_no := e.serial_no
    fss_no := e.fss_no
    eobi_no := e.eobi_no
    base_salary := base_salary
    allowances := allowances
    bank_name := none
    account_number := none
    working_days := workingDays
    day_rate := day_rate
    payable_days := payable_days
    basic_earned := total_salary
    pre_days := pre_days
    cur_days := cur_days
    leave_encashment_days := leave_encashment_days
    total_days := total_days
    total_salary := total_salary
    present_days := acc.present_days
    late_days := acc.late_days
    absent_days := acc.absent_days
    paid_leave_days := acc.paid_leave_days
    unpaid_leave_days := acc.unpaid_leave_days
    unmarked_days := acc.unmarked_days
    overtime_minutes := acc.overtime_minutes
    overtime_pay := acc.overtime_pay
    overtime_rate := acc.overtime_rate
    late_minutes := acc.late_minutes
    late_deduction := acc.late_deduction
    late_rate := late_rate
    fine_deduction := acc.fine_deduction
    allow_other := allow_other
    eobi := eobi
    tax := tax
    fine_adv_extra := fine_adv_extra
    fine_adv := fine_adv
    remarks := remarks
    bank_cash := bank_cash
    unpaid_leave_deduction := unpaid_leave_deduction
    advance_deduction := adv_ded
    gross_pay := gross_pay
    net_pay := net_pay
    paid_status := statusLookup stats label employee_id }

/-- One employee's row of the payroll.py date-range report. -/
def rowRange1 (startD endD : PDate) (workingDays : Int) (label : String)
    (atts : List AttendanceRecord) (sheets : List PayrollSheetEntry)
    (advs : List AdvanceDeduction) (stats : List PaymentStatus) (e : Employee) : Row1 :=
  rowRange1Core startD endD workingDays label atts advs stats e
    (sheetLookup sheets startD endD e.id)

/-- payroll.py date-range report body after date validation. -/
def buildRange1 (startD endD : PDate) (month? : Option String) (db : DB) : Report1 :=
  let label := pyOrStr month? (monthLabel endD)
  let workingDays := daysInclusive startD endD
  let atts := attInRange db.attendance startD endD
  let emps := sortByLt empLt (db.employees.filter (eligible endD))
  let rows := emps.map
    (rowRange1 startD endD workingDays label atts db.sheets db.advances db.paymentStatuses)
  { month := label
    summary :=
      { month := label
        employees := rows.length
        total_gross := (rows.map (fun r => r.gross_pay)).sum
        total_net := (rows.map (fun r => r.net_pay)).sum }
    rows := rows }

/-- The payroll_range_report endpoint. -/
def payrollRangeReport (from_date to_date : String) (month? : Option String) (db : DB) :
    Except PErr Report1 :=
  match parseDate from_date "from_date" with
  | .error er => .error er
  | .ok startD =>
    match parseDate to_date "to_date" with
    | .error er => .error er
    | .ok endD =>
      if pyDateLt endD startD then .error (.http "from_date must be <= to_date")
      else .ok (buildRange1 startD endD month? db)

/-! ## Date-range report (payroll2.py payroll2_range_report) -/

/-- A row of the payroll2 date-range report. -/
structure Row2 where
  employee_db_id : Nat
  employee_id : String
  name : String
  serial_no : Option String
  fss_no : Option String
  eobi_no : Option String
  base_salary : Rat
  working_days : Int
  day_rate : Rat
  presents_total : Int
  present_dates_prev : List String
  present_dates_cur : List String
  present_days : Int
  late_days : Int
  absent_days : Int
  paid_leave_days : Int
  unpaid_leave_days : Int
  pre_days : Int
  cur_days : Int
  leave_encashment_days : Int
  total_days : Int
  total_salary : Rat
  overtime_minutes : Int
  overtime_rate : Rat
  overtime_pay : Rat
  late_minutes : Int
  late_deduction : Rat
  allow_other : Rat
  gross_pay : Rat
  eobi : Rat
  tax : Rat
  fine_deduction : Rat
  fine_adv_extra : Rat
  fine_adv : Rat
  advance_deduction : Rat
  net_pay : Rat
  remarks : Option String
  bank_cash : Option String
deriving DecidableEq

/-- payroll2 report summary. -/
structure Summary2 where
  month : String
  from_date : String
  to_date : String
  working_days : Int
  employees : Nat
  total_gross : Rat
  total_net : Rat
  total_presents : Int
deriving DecidableEq

/-- payroll2 report response. -/
structure Report2 where
  month : String
  summary : Summary2
  rows : List Row2
deriving DecidableEq

/-- One employee's row of the payroll2 date-range report. Notable differences
from the payroll.py range row: pre/cur day overrides are NOT clamped, there is
no unmarked counter, and gross has no separate allowances term. -/
def rowRange2Core (startD endD : PDate) (workingDays : Int) (label : String)
    (atts : List AttendanceRecord) (advs : List AdvanceDeduction) (e : Employee)
    (sheet : Option PayrollSheetEntry) : Row2 :=
  let employee_id := pyStrip (pyOrStr e.fss_no (pyOrStr e.serial_no (toString e.id)))
  let base_salary := toFloat e.salary
  let day_rate := if workingDays > 0 then base_salary / (workingDays : Rat) else 0
  let dates := dateRange startD workingDays.toNat
  let acc := aggRange2 atts employee_id dates
  let pdates := presentDates2 atts employee_id dates endD.month
  let presents_total := acc.present_days + acc.late_days
  let pre_days := (sheet.bind (fun s => s.pre_days_override)).getD 0
  let cur_days := (sheet.bind (fun s => s.cur_days_override)).getD 0
  let leave_encashment_days :=
    match sheet with | some s => s.leave_encashment_days.getD 0 | none => 0
  let total_days0 := presents_total + leave_encashment_days
  let total_days := if total_days0 < 0 then 0 else total_days0
  let total_salary := (total_days : Rat) * day_rate
  let allow_other := match sheet with | some s => s.allow_other.getD 0 | none => 0
  let eobi := match sheet with | some s => s.eobi.getD 0 | none => 0
  let tax := match sheet with | some s => s.tax.getD 0 | none => 0
  let fine_adv_extra := match sheet with | some s => s.fine_adv_extra.getD 0 | none => 0
  let remarks := sheet.bind (fun s => s.remarks)
  let bank_cash := sheet.bind (fun s => s.bank_cash)
  let adv_ded := advanceLookup advs label e.id
  let fine_adv := acc.fine_deduction + adv_ded + fine_adv_extra
  let gross_pay := total_salary + acc.overtime_rate + acc.overtime_pay + allow_other
  let net_pay := gross_pay - eobi - tax - fine_adv - acc.late_deduction
  { employee_db_id := e.id
    employee_id := employee_id
    name := pyOrStr e.name ""
    serial_no := e.serial_no
    fss_no := e.fss_no
    eobi_no := e.eobi_no
    base_salary := base_salary
    working_days := workingDays
    day_rate := day_rate
    presents_total := presents_total
    present_dates_prev := pdates.1
    present_dates_cur := pdates.2
    present_days := acc.present_days
    late_days := acc.late_days
    absent_days := acc.absent_days
    paid_leave_days := acc.paid_leave_days
    unpaid_leave_days := acc.unpaid_leave_days
    pre_days := pre_days
    cur_days := cur_days
    leave_encashment_days := leave_encashment_days
    total_days := total_days
    total_salary := total_salary
    overtime_minutes := acc.overtime_minutes
    overtime_rate := acc.overtime_rate
    overtime_pay := acc.overtime_pay
    late_minutes := acc.late_minutes
    late_deduction := acc.late_deduction
    allow_other := allow_other
    gross_pay := gross_pay
    eobi := eobi
    tax := tax
    fine_deduction := acc.fine_deduction
    fine_adv_extra := fine_adv_extra
    fine_adv := fine_adv
    advance_deduction := adv_ded
    net_pay := net_pay
    remarks := remarks
    bank_cash := bank_cash }

/-- One employee's row of the payroll2 date-range report. -/
def rowRange2 (startD endD : PDate) (workingDays : Int) (label : String)
    (atts : List AttendanceRecord) (sheets : List PayrollSheetEntry)
    (advs : List AdvanceDeduction) (e : Employee) : Row2 :=
  rowRange2Core startD endD workingDays label atts advs e (sheetLookup sheets startD endD e.id)

/-- payroll2 range report body after date validation. -/
def buildRange2 (startD endD : PDate) (month? : Option String) (db : DB) : Report2 :=
  let label := pyOrStr month? (monthLabel endD)
  let workingDays := daysInclusive startD endD
  let atts := attInRange db.attendance startD endD
  let emps := sortByLt empLt (db.employees.filter (eligible endD))
  let rows := emps.map (rowRange2 startD endD workingDays label atts db.sheets db.advances)
  { month := label
    summary :=
      { month := label
        from_date := isoDate startD
        to_date := isoDate endD
        working_days := workingDays
        employees := rows.length
        total_gross := (rows.map (fun r => r.gross_pay)).sum
        total_net := (rows.map (fun r => r.net_pay)).sum
        total_presents := (rows.map (fun r => r.presents_total)).sum }
    rows := rows }

/-- The payroll2_range_report endpoint. -/
def payroll2RangeReport (from_date to_date : String) (month? : Option String) (db : DB) :
    Except PErr Report2 :=
  match parseDate from_date "from_date" with
  | .error er => .error er
  | .ok startD =>
    match parseDate to_date "to_date" with
    | .error er => .error er
    | .ok endD =>
      if pyDateLt endD startD then .error (.http "from_date must be <= to_date")
      else .ok (buildRange2 startD endD month? db)

/-! ## Payment status tracker -/

/-- Key match of a payment-status row (the query filter of both endpoints). -/
def psMatches (month empId : String) (r : PaymentStatus) : Bool :=
  r.month == month && r.employee_id == empId

/-- Find the first row matching p; replace it with f of it, or append mk when
none matches. This models query-first / mutate-or-add / commit on a store. -/
def upsertFirst (p : α → Bool) (f : α → α) (mk : α) : List α → List α
  | [] => [mk]
  | x :: xs => if p x then f x :: xs else x :: upsertFirst p f mk xs

/-- The get_payment_status endpoint: return the first matching row, or
materialize and persist a default unpaid row. -/
def getPaymentStatus (month empId : String) (db : DB) : PaymentStatus × DB :=
  match db.paymentStatuses.find? (psMatches month empId) with
  | some r => (r, db)
  | none =>
    let r : PaymentStatus :=
      { month := month, employee_id := empId, status := some "unpaid"
        employee_db_id := none, net_pay_snapshot := none }
    (r, { db with paymentStatuses := db.paymentStatuses ++ [r] })

/-- Payload of the upsert_payment_status endpoint. -/
structure PSUpsert where
  month : String
  employee_id : String
  status : Option String
deriving DecidableEq

/-- The upsert_payment_status endpoint: validate the status, refresh the
employee link, recompute the month report for a "paid" transition to obtain
the net-pay snapshot, then create or overwrite the row. -/
def upsertPaymentStatus (payload : PSUpsert) (db : DB) :
    Except PErr (PaymentStatus × DB) :=
  let status := pyLower (pyStrip (pyOrStr payload.status ""))
  if status ≠ "paid" ∧ status ≠ "unpaid" then
    .error (.http "status must be paid or unpaid")
  else
    let row? := db.paymentStatuses.find? (psMatches payload.month payload.employee_id)
    let empDbId := (db.employees.find? (fun e => e.fss_no == some payload.employee_id)).map
      (fun e => e.id)
    let snapE : Except PErr (Option Rat) :=
      if status = "paid" then
        match payrollReport payload.month db with
        | .error er => .error er
        | .ok rep =>
          .ok ((rep.rows.find? (fun r => r.employee_id == payload.employee_id)).map
            (fun m => m.net_pay))
      else .ok none
    match snapE with
    | .error er => .error er
    | .ok netSnap =>
      let upd := fun (r : PaymentStatus) =>
        { r with status := some status, employee_db_id := empDbId,
                 net_pay_snapshot := if status = "paid" then netSnap else none }
      let fresh := upd
        { month := payload.month, employee_id := payload.employee_id
          status := some status, employee_db_id := none, net_pay_snapshot := none }
      let res := match row? with | some r => upd r | none => fresh
      .ok (res,
        { db with paymentStatuses :=
            (upsertFirst (psMatches payload.month payload.employee_id) upd fresh
              db.paymentStatuses) })

/-! ## Sheet-entry bulk upsert -/

/-- One entry of the bulk sheet-override payload. -/
structure SheetEntryIn where
  employee_db_id : Nat
  from_date : PDate
  to_date : PDate
  pre_days_override : Option Int
  cur_days_override : Option Int
  leave_encashment_days : Option Int
  allow_other : Option Rat
  eobi : Option Rat
  tax : Option Rat
  fine_adv_extra : Option Rat
  remarks : Option String
  bank_cash : Option String
deriving DecidableEq

/-- The bulk sheet-override payload. -/
structure SheetBulkUpsert where
  from_date : PDate
  to_date : PDate
  entries : List SheetEntryIn
deriving DecidableEq

/-- Key predicate of a sheet row: (employee_db_id, from, to). -/
def sheetKeyP (id : Nat) (startD endD : PDate) (r : PayrollSheetEntry) : Bool :=
  decide (r.employee_db_id = id) && decide (r.from_date = startD) && decide (r.to_date = endD)

/-- A sheet row as created with only its keys set. -/
def blankSheet (id : Nat) (startD endD : PDate) : PayrollSheetEntry :=
  { employee_db_id := id, from_date := startD, to_date := endD
    pre_days_override := none, cur_days_override := none, leave_encashment_days := none
    allow_other := none, eobi := none, tax := none, fine_adv_extra := none
    remarks := none, bank_cash := none }

/-- Assign every mutable field of the row from the entry (full replace). -/
def applyEntry (r : PayrollSheetEntry) (e : SheetEntryIn) : PayrollSheetEntry :=
  { r with
    pre_days_override := e.pre_days_override
    cur_days_override := e.cur_days_override
    leave_encashment_days := some (e.leave_encashment_days.getD 0)
    allow_other := some (e.allow_other.getD 0)
    eobi := some (e.eobi.getD 0)
    tax := some (e.tax.getD 0)
    fine_adv_extra := some (e.fine_adv_extra.getD 0)
    remarks := e.remarks
    bank_cash := e.bank_cash }

/-- Process one entry: update the first row matching the key in place or add
a new row (session add appends). -/
def upsertSheetEntry (startD endD : PDate) (sheets : List PayrollSheetEntry)
    (e : SheetEntryIn) : List PayrollSheetEntry :=
  upsertFirst (sheetKeyP e.employee_db_id startD endD) (fun r => applyEntry r e)
    (applyEntry (blankSheet e.employee_db_id startD endD) e) sheets

/-- The entry loop: the first entry whose period disagrees with the declared
period aborts the request; otherwise all entries are applied in order. -/
def processEntries (startD endD : PDate) :
    List SheetEntryIn → List PayrollSheetEntry → Except PErr (List PayrollSheetEntry)
  | [], acc => .ok acc
  | e :: rest, acc =>
    if e.from_date = startD ∧ e.to_date = endD then
      processEntries startD endD rest (upsertSheetEntry startD endD acc e)
    else .error (.http "entry period must match payload from/to")

/-- The bulk_upsert_payroll_sheet_entries endpoint. The commit happens only
after the loop completes, so an aborted request leaves the store unchanged
(the error result carries no new state). -/
def bulkUpsertSheetEntries (payload : SheetBulkUpsert) (db : DB) : Except PErr DB :=
  if pyDateLt payload.to_date payload.from_date then
    .error (.http "from_date must be <= to_date")
  else
    match processEntries payload.from_date payload.to_date payload.entries db.sheets with
    | .error er => .error er
    | .ok sheets => .ok { db with sheets := sheets }

/-! ## Derived observers used by the theorems -/

/-- Sum of the six range-walk day-category counters. -/
def sum6 (acc : AttAcc) : Int :=
  acc.present_days + acc.late_days + acc.absent_days + acc.paid_leave_days +
    acc.unpaid_leave_days + acc.unmarked_days

/-- Sum of the five record-status counters (no unmarked). -/
def sum5 (acc : AttAcc) : Int :=
  acc.present_days + acc.late_days + acc.absent_days + acc.paid_leave_days +
    acc.unpaid_leave_days

/-- A record whose status is one of the four categories the month engine
counts. -/
def recognizedM (a : AttendanceRecord) : Bool :=
  let st := normLS (pyOrStr a.status "")
  st == "present" || st == "late" || st == "absent" || st == "leave"

/-! ## Basic lemmas -/

theorem intMaxIf (x : Int) : (if x < 0 then 0 else x) = max 0 x := by
  split <;> omega

/-- Unfolding of the payroll.py range-report success case. -/
theorem payrollRangeReport_ok {f t : String} {mo : Option String} {db : DB} {rep : Report1}
    (h : payrollRangeReport f t mo db = .ok rep) :
    ∃ startD endD, parseDate f "from_date" = .ok startD ∧ parseDate t "to_date" = .ok endD ∧
      pyDateLt endD startD = false ∧ rep = buildRange1 startD endD mo db := by
  unfold payrollRangeReport at h
  cases hf : parseDate f "from_date" with
  | error er => simp [hf] at h
  | ok startD =>
    cases ht : parseDate t "to_date" with
    | error er => simp [hf, ht] at h
    | ok endD =>
      simp only [hf, ht] at h
      by_cases hlt : pyDateLt endD startD = true
      · rw [if_pos hlt] at h; exact absurd h (by simp)
      · rw [if_neg hlt] at h
        injection h with h
        exact ⟨startD, endD, rfl, rfl, by simpa using hlt, h.symm⟩

/-- Unfolding of the payroll2 range-report success case. -/
theorem payroll2RangeReport_ok {f t : String} {mo : Option String} {db : DB} {rep : Report2}
    (h : payroll2RangeReport f t mo db = .ok rep) :
    ∃ startD endD, parseDate f "from_date" = .ok startD ∧ parseDate t "to_date" = .ok endD ∧
      pyDateLt endD startD = false ∧ rep = buildRange2 startD endD mo db := by
  unfold payroll2RangeReport at h
  cases hf : parseDate f "from_date" with
  | error er => simp [hf] at h
  | ok startD =>
    cases ht : parseDate t "to_date" with
    | error er => simp [hf, ht] at h
    | ok endD =>
      simp only [hf, ht] at h
      by_cases hlt : pyDateLt endD startD = true
      · rw [if_pos hlt] at h; exact absurd h (by simp)
      · rw [if_neg hlt] at h
        injection h with h
        exact ⟨startD, endD, rfl, rfl, by simpa using hlt, h.symm⟩

/-- Unfolding of the calendar-month report success case. -/
theorem payrollReport_ok {mo : String} {db : DB} {rep : ReportM}
    (h : payrollReport mo db = .ok rep) :
    ∃ startD endD, parseMonth mo = .ok (startD, endD) ∧ rep = buildMonth startD endD mo db := by
  unfold payrollReport at h
  cases hm : parseMonth mo with
  | error er => simp [hm] at h
  | ok p =>
    simp only [hm] at h
    injection h with h
    exact ⟨p.1, p.2, by simp, h.symm⟩

/-- The row list of the payroll.py range report. -/
theorem buildRange1_rows (startD endD : PDate) (mo : Option String) (db : DB) :
    (buildRange1 startD endD mo db).rows =
      (sortByLt empLt (db.employees.filter (eligible endD))).map
        (rowRange1 startD endD (daysInclusive startD endD) (pyOrStr mo (monthLabel endD))
          (attInRange db.attendance startD endD) db.sheets db.advances db.paymentStatuses) := rfl

/-- The row list of the payroll2 range report. -/
theorem buildRange2_rows (startD endD : PDate) (mo : Option String) (db : DB) :
    (buildRange2 startD endD mo db).rows =
      (sortByLt empLt (db.employees.filter (eligible endD))).map
        (rowRange2 startD endD (daysInclusive startD endD) (pyOrStr mo (monthLabel endD))
          (attInRange db.attendance startD endD) db.sheets db.advances) := rfl

/-- The row list of the calendar-month report. -/
theorem buildMonth_rows (startD endD : PDate) (label : String) (db : DB) :
    (buildMonth startD endD label db).rows =
      (sortByLt serialStrLt (db.employees.filter (eligible endD))).map
        (rowMonth label (attInRange db.attendance startD endD) db.advances
          db.paymentStatuses) := rfl

/-! ## Sortedness of the stable insertion sort -/

theorem mem_insertByLt {lt : α → α → Bool} {x y : α} {l : List α}
    (h : y ∈ insertByLt lt x l) : y = x ∨ y ∈ l := by
  induction l with
  | nil => simpa [insertByLt] using h
  | cons z zs ih =>
    unfold insertByLt at h
    by_cases hc : lt x z = true
    · rw [if_pos hc] at h
      rcases List.mem_cons.1 h with h | h
      · exact Or.inl h
      · exact Or.inr h
    · rw [if_neg hc] at h
      rcases List.mem_cons.1 h with h | h
      · exact Or.inr (List.mem_cons.2 (Or.inl h))
      · rcases ih h with h | h
        · exact Or.inl h
        · exact Or.inr (List.mem_cons.2 (Or.inr h))

theorem pairwise_insertByLt (K : α → Int) (x : α) (l : List α)
    (h : l.Pairwise (fun a b => K a ≤ K b)) :
    (insertByLt (fun a b => decide (K a < K b)) x l).Pairwise (fun a b => K a ≤ K b) := by
  induction l with
  | nil => simp [insertByLt]
  | cons z zs ih =>
    rcases List.pairwise_cons.1 h with ⟨hz, hzs⟩
    unfold insertByLt
    by_cases hc : K x < K z
    · rw [if_pos (by simpa using hc)]
      refine List.pairwise_cons.2 ⟨?_, h⟩
      intro b hb
      rcases List.mem_cons.1 hb with rfl | hb
      · omega
      · have := hz b hb; omega
    · rw [if_neg (by simpa using hc)]
      refine List.pairwise_cons.2 ⟨?_, ih hzs⟩
      intro b hb
      rcases mem_insertByLt hb with rfl | hb
      · omega
      · exact hz b hb

theorem pairwise_sortByLt (K : α → Int) (l : List α) :
    (sortByLt (fun a b => decide (K a < K b)) l).Pairwise (fun a b => K a ≤ K b) := by
  suffices h : ∀ acc : List α, acc.Pairwise (fun a b => K a ≤ K b) →
      (l.foldl (fun acc x => insertByLt (fun a b => decide (K a < K b)) x acc) acc).Pairwise
        (fun a b => K a ≤ K b) by
    exact h [] (by simp)
  induction l with
  | nil => intro acc hacc; simpa using hacc
  | cons x xs ih => intro acc hacc; exact ih _ (pairwise_insertByLt K x acc hacc)

theorem pairwise_insertByLt_lt (lt : α → α → Bool)
    (hasym : ∀ a b, lt a b = true → lt b a = false)
    (htrans : ∀ a b c, lt a b = true → lt b c = true → lt a c = true)
    (x : α) (l : List α) (h : l.Pairwise (fun a b => lt b a = false)) :
    (insertByLt lt x l).Pairwise (fun a b => lt b a = false) := by
  induction l with
  | nil => simp [insertByLt]
  | cons z zs ih =>
    rcases List.pairwise_cons.1 h with ⟨hz, hzs⟩
    unfold insertByLt
    by_cases hc : lt x z = true
    · rw [if_pos hc]
      refine List.pairwise_cons.2 ⟨?_, h⟩
      intro b hb
      rcases List.mem_cons.1 hb with rfl | hb
      · exact hasym x b hc
      · cases hxe : lt b x with
        | false => rfl
        | true =>
          have h1 := htrans b x z hxe hc
          rw [hz b hb] at h1
          exact absurd h1 (by decide)
    · rw [if_neg hc]
      have hcf : lt x z = false := by simpa using hc
      refine List.pairwise_cons.2 ⟨?_, ih hzs⟩
      intro b hb
      rcases mem_insertByLt hb with rfl | hb
      · exact hcf
      · exact hz b hb

theorem pairwise_sortByLt_lt (lt : α → α → Bool)
    (hasym : ∀ a b, lt a b = true → lt b a = false)
    (htrans : ∀ a b c, lt a b = true → lt b c = true → lt a c = true) (l : List α) :
    (sortByLt lt l).Pairwise (fun a b => lt b a = false) := by
  suffices h : ∀ acc : List α, acc.Pairwise (fun a b => lt b a = false) →
      (l.foldl (fun acc x => insertByLt lt x acc) acc).Pairwise
        (fun a b => lt b a = false) by
    exact h [] (by simp)
  induction l with
  | nil => intro acc hacc; simpa using hacc
  | cons x xs ih =>
    intro acc hacc
    exact ih _ (pairwise_insertByLt_lt lt hasym htrans x acc hacc)

theorem strLtB_asymm (x : List Char) : ∀ y, strLtB x y = true → strLtB y x = false := by
  induction x with
  | nil =>
    intro y h
    cases y with
    | nil => simp [strLtB] at h
    | cons b bs => simp [strLtB]
  | cons a as ih =>
    intro y h
    cases y with
    | nil => simp [strLtB] at h
    | cons b bs =>
      simp only [strLtB] at h ⊢
      by_cases h1 : a.toNat < b.toNat
      · rw [if_neg (by omega : ¬b.toNat < a.toNat), if_pos h1]
      · rw [if_neg h1] at h
        by_cases h2 : b.toNat < a.toNat
        · rw [if_pos h2] at h
          exact absurd h (by decide)
        · rw [if_neg h2] at h
          rw [if_neg h2, if_neg h1]
          exact ih bs h

theorem strLtB_trans (x : List Char) : ∀ y z, strLtB x y = true → strLtB y z = true →
    strLtB x z = true := by
  induction x with
  | nil =>
    intro y z hxy hyz
    cases y with
    | nil => simp [strLtB] at hxy
    | cons b bs =>
      cases z with
      | nil => simp [strLtB] at hyz
      | cons c cs => simp [strLtB]
  | cons a as ih =>
    intro y z hxy hyz
    cases y with
    | nil => simp [strLtB] at hxy
    | cons b bs =>
      cases z with
      | nil => simp [strLtB] at hyz
      | cons c cs =>
        simp only [strLtB] at hxy hyz ⊢
        by_cases h1 : a.toNat < b.toNat
        · by_cases h2 : b.toNat < c.toNat
          · rw [if_pos (by omega : a.toNat < c.toNat)]
          · rw [if_neg h2] at hyz
            by_cases h3 : c.toNat < b.toNat
            · rw [if_pos h3] at hyz
              exact absurd hyz (by decide)
            · rw [if_pos (by omega : a.toNat < c.toNat)]
        · rw [if_neg h1] at hxy
          by_cases h1' : b.toNat < a.toNat
          · rw [if_pos h1'] at hxy
            exact absurd hxy (by decide)
          · rw [if_neg h1'] at hxy
            by_cases h2 : b.toNat < c.toNat
            · rw [if_pos (by omega : a.toNat < c.toNat)]
            · rw [if_neg h2] at hyz
              by_cases h3 : c.toNat < b.toNat
              · rw [if_pos h3] at hyz
                exact absurd hyz (by decide)
              · rw [if_neg h3] at hyz
                rw [if_neg (by omega : ¬a.toNat < c.toNat),
                  if_neg (by omega : ¬c.toNat < a.toNat)]
                exact ih bs cs hxy hyz

/-- The store's string-ascending collation on optional serial numbers, NULL
first: the key order the month engine's order_by(serial_no.asc()) sorts by. -/
def serialStrKeyLt (x y : Option String) : Bool :=
  match x, y with
  | none, none => false
  | none, some _ => true
  | some _, none => false
  | some u, some v => strLtB u.data v.data

theorem serialStrLt_eq_key (a b : Employee) :
    serialStrLt a b = serialStrKeyLt a.serial_no b.serial_no := by
  cases ha : a.serial_no with
  | none =>
    cases hb : b.serial_no with
    | none => simp [serialStrLt, serialStrKeyLt, ha, hb]
    | some y => simp [serialStrLt, serialStrKeyLt, ha, hb]
  | some x =>
    cases hb : b.serial_no with
    | none => simp [serialStrLt, serialStrKeyLt, ha, hb]
    | some y => simp [serialStrLt, serialStrKeyLt, ha, hb]

theorem serialStrLt_asymm (a b : Employee) (h : serialStrLt a b = true) :
    serialStrLt b a = false := by
  cases ha : a.serial_no with
  | none =>
    cases hb : b.serial_no with
    | none => simp [serialStrLt, ha, hb] at h
    | some y => simp [serialStrLt, ha, hb]
  | some x =>
    cases hb : b.serial_no with
    | none => simp [serialStrLt, ha, hb] at h
    | some y =>
      simp only [serialStrLt, ha, hb] at h ⊢
      exact strLtB_asymm x.data y.data h

theorem serialStrLt_trans (a b c : Employee) (hab : serialStrLt a b = true)
    (hbc : serialStrLt b c = true) : serialStrLt a c = true := by
  cases ha : a.serial_no with
  | none =>
    cases hc : c.serial_no with
    | none =>
      cases hb : b.serial_no with
      | none => simp [serialStrLt, hb, hc] at hbc
      | some y => simp [serialStrLt, hb, hc] at hbc
    | some z => simp [serialStrLt, ha, hc]
  | some x =>
    cases hb : b.serial_no with
    | none => simp [serialStrLt, ha, hb] at hab
    | some y =>
      cases hc : c.serial_no with
      | none => simp [serialStrLt, hb, hc] at hbc
      | some z =>
        simp only [serialStrLt, ha, hb] at hab
        simp only [serialStrLt, hb, hc] at hbc
        simp only [serialStrLt, ha, hc]
        exact strLtB_trans x.data y.data z.data hab hbc

/-! ## Claim C1 -/

/-- Claim C1: in both date-range engines, every row satisfies
day_rate = base_salary / working_days (0 if working_days ≤ 0),
presents_total = present_days + late_days,
total_days = max(0, presents_total + leave_encashment_days),
total_salary = total_days * day_rate,
gross_pay = total_salary + overtime_rate + overtime_pay + allowances + allow_other
(allowances being the always-zero employee allowance slot, absent from the
payroll2 row), and
net_pay = gross_pay - eobi - tax - (fine_deduction + advance_deduction +
fine_adv_extra) - late_deduction. -/
theorem C1_range_row_formulas (f t : String) (mo : Option String) (db : DB)
    (rep1 : Report1) (rep2 : Report2)
    (h1 : payrollRangeReport f t mo db = .ok rep1)
    (h2 : payroll2RangeReport f t mo db = .ok rep2) :
    (∀ r ∈ rep1.rows,
      r.day_rate = (if r.working_days > 0 then r.base_salary / (r.working_days : Rat) else 0) ∧
      r.total_days = max 0 ((r.present_days + r.late_days) + r.leave_encashment_days) ∧
      r.total_salary = (r.total_days : Rat) * r.day_rate ∧
      r.allowances = 0 ∧
      r.gross_pay =
        r.total_salary + r.overtime_rate + r.overtime_pay + r.allowances + r.allow_other ∧
      r.net_pay = r.gross_pay - r.eobi - r.tax -
        (r.fine_deduction + r.advance_deduction + r.fine_adv_extra) - r.late_deduction) ∧
    (∀ r ∈ rep2.rows,
      r.day_rate = (if r.working_days > 0 then r.base_salary / (r.working_days : Rat) else 0) ∧
      r.presents_total = r.present_days + r.late_days ∧
      r.total_days = max 0 (r.presents_total + r.leave_encashment_days) ∧
      r.total_salary = (r.total_days : Rat) * r.day_rate ∧
      r.gross_pay = r.total_salary + r.overtime_rate + r.overtime_pay + r.allow_other ∧
      r.net_pay = r.gross_pay - r.eobi - r.tax -
        (r.fine_deduction + r.advance_deduction + r.fine_adv_extra) - r.late_deduction) := by
  obtain ⟨s1, e1, hf1, ht1, hlt1, hrep1⟩ := payrollRangeReport_ok h1
  obtain ⟨s2, e2, hf2, ht2, hlt2, hrep2⟩ := payroll2RangeReport_ok h2
  subst hrep1; subst hrep2
  constructor
  · intro r hr
    rw [buildRange1_rows] at hr
    obtain ⟨e, _, rfl⟩ := List.mem_map.1 hr
    refine ⟨rfl, ?_, rfl, rfl, rfl, ?_⟩
    · rw [← intMaxIf]; rfl
    · show _ - (0 : Rat) = _
      rw [sub_zero]
      rfl
  · intro r hr
    rw [buildRange2_rows] at hr
    obtain ⟨e, _, rfl⟩ := List.mem_map.1 hr
    refine ⟨rfl, rfl, ?_, rfl, rfl, rfl⟩
    rw [← intMaxIf]; rfl

/-- Shared witness fixture: one employee. -/
def wEmp : Employee :=
  { id := 1, serial_no := some "1", fss_no := some "E1", eobi_no := none,
    name := some "Alice", category := none, salary := some "31000", created_at := none }

/-- Shared witness fixture: one attendance record with overtime and a fine. -/
def wAtt : AttendanceRecord :=
  { employee_id := some "E1", date := ⟨2024, 2, 1⟩, status := some "present",
    leave_type := none, overtime_minutes := some 120, overtime_rate := some 50,
    late_minutes := none, late_deduction := none, fine_amount := some 100 }

/-- Shared witness fixture: a sheet override for 2024-02-01..2024-02-02. -/
def wSheet : PayrollSheetEntry :=
  { employee_db_id := 1, from_date := ⟨2024, 2, 1⟩, to_date := ⟨2024, 2, 2⟩,
    pre_days_override := some (-5), cur_days_override := none,
    leave_encashment_days := some 2, allow_other := some 500, eobi := some 200,
    tax := some 300, fine_adv_extra := some 10, remarks := none, bank_cash := none }

/-- Shared witness fixture: an advance deduction for month 2024-02. -/
def wAdv : AdvanceDeduction := { employee_db_id := 1, month := "2024-02", amount := some 700 }

/-- Shared witness fixture: the store. -/
def wDb : DB :=
  { employees := [wEmp], attendance := [wAtt], sheets := [wSheet],
    advances := [wAdv], paymentStatuses := [] }

/-- The single row the payroll.py range report computes on the witness store. -/
def wRow1 : Row1 :=
  rowRange1 ⟨2024, 2, 1⟩ ⟨2024, 2, 2⟩ (daysInclusive ⟨2024, 2, 1⟩ ⟨2024, 2, 2⟩)
    (pyOrStr (some "2024-02") (monthLabel ⟨2024, 2, 2⟩))
    (attInRange wDb.attendance ⟨2024, 2, 1⟩ ⟨2024, 2, 2⟩) wDb.sheets wDb.advances
    wDb.paymentStatuses wEmp

theorem C1_witness :
    wRow1.day_rate =
      (if wRow1.working_days > 0 then wRow1.base_salary / (wRow1.working_days : Rat) else 0) ∧
    wRow1.total_days =
      max 0 ((wRow1.present_days + wRow1.late_days) + wRow1.leave_encashment_days) ∧
    wRow1.total_salary = (wRow1.total_days : Rat) * wRow1.day_rate ∧
    wRow1.allowances = 0 ∧
    wRow1.gross_pay = wRow1.total_salary + wRow1.overtime_rate + wRow1.overtime_pay +
      wRow1.allowances + wRow1.allow_other ∧
    wRow1.net_pay = wRow1.gross_pay - wRow1.eobi - wRow1.tax -
      (wRow1.fine_deduction + wRow1.advance_deduction + wRow1.fine_adv_extra) -
      wRow1.late_deduction :=
  (C1_range_row_formulas "2024-02-01" "2024-02-02" (some "2024-02") wDb
    (buildRange1 ⟨2024, 2, 1⟩ ⟨2024, 2, 2⟩ (some "2024-02") wDb)
    (buildRange2 ⟨2024, 2, 1⟩ ⟨2024, 2, 2⟩ (some "2024-02") wDb)
    (by with_unfolding_all rfl) (by with_unfolding_all rfl)).1 wRow1
    (by rw [buildRange1_rows]; exact List.mem_map.2 ⟨wEmp, by decide, rfl⟩)

/-! ## Claim C2 -/

/-- C2 counterexample fixture: one employee. -/
def c2Emp : Employee :=
  { id := 1, serial_no := some "1", fss_no := some "E1", eobi_no := none,
    name := some "Bob", category := none, salary := some "31000", created_at := none }

/-- C2 counterexample fixture: a sheet override for January 2024 with an EOBI
contribution of 200. -/
def c2Sheet : PayrollSheetEntry :=
  { employee_db_id := 1, from_date := ⟨2024, 1, 1⟩, to_date := ⟨2024, 1, 31⟩,
    pre_days_override := none, cur_days_override := none, leave_encashment_days := some 0,
    allow_other := some 0, eobi := some 200, tax := some 0, fine_adv_extra := some 0,
    remarks := none, bank_cash := none }

/-- C2 counterexample fixture: the store. -/
def c2Db : DB :=
  { employees := [c2Emp], attendance := [], sheets := [c2Sheet], advances := [],
    paymentStatuses := [] }

/-- Claim C2 counterexample: the calendar-month report ignores the sheet
override entirely. The employee's override for the 2024-01 period carries
eobi = 200, yet the computed row has gross_pay = net_pay = 31000; the claimed
formula net_pay = gross_pay - eobi - ... would give at most 30800. -/
theorem C2_counterexample :
    (payrollReport "2024-01" c2Db).map
        (fun rep => rep.rows.map (fun r => (r.gross_pay, r.net_pay))) =
      .ok [((31000 : Rat), (31000 : Rat))] ∧
    sheetLookup c2Db.sheets ⟨2024, 1, 1⟩ ⟨2024, 1, 31⟩ 1 = some c2Sheet ∧
    c2Sheet.eobi = some 200 ∧
    (31000 : Rat) ≠ 31000 - 200 := by
  refine ⟨by with_unfolding_all rfl, by with_unfolding_all rfl, rfl, by norm_num⟩

/-- Claim C2 (amended): in the calendar-month report every row satisfies
gross_pay = base_salary + allowances + overtime_rate + overtime_pay (with
allowances always 0 and no total_salary/allow_other terms) and
net_pay = gross_pay - late_deduction - unpaid_leave_deduction -
advance_deduction, where unpaid_leave_deduction = unpaid_leave_days * 1000.
The sheet overrides are not consulted at all: the report is unchanged under
any replacement of the sheet table, so eobi, tax, allow_other and
fine_adv_extra never enter the month computation. -/
theorem C2_month_row_formulas (mo : String) (db : DB) (rep : ReportM)
    (h : payrollReport mo db = .ok rep) :
    (∀ r ∈ rep.rows,
      r.allowances = 0 ∧
      r.gross_pay = r.base_salary + r.allowances + r.overtime_rate + r.overtime_pay ∧
      r.unpaid_leave_deduction = (r.unpaid_leave_days : Rat) * 1000 ∧
      r.net_pay =
        r.gross_pay - r.late_deduction - r.unpaid_leave_deduction - r.advance_deduction) ∧
    (∀ sheets', payrollReport mo { db with sheets := sheets' } = .ok rep) := by
  obtain ⟨s1, e1, hm, hrep⟩ := payrollReport_ok h
  subst hrep
  constructor
  · intro r hr
    rw [buildMonth_rows] at hr
    obtain ⟨emp, _, rfl⟩ := List.mem_map.1 hr
    exact ⟨rfl, rfl, rfl, rfl⟩
  · intro sheets'
    unfold payrollReport
    rw [hm]
    rfl

/-- The single row the calendar-month report computes on the witness store. -/
def wMonthRow : MonthRow :=
  rowMonth "2024-02" (attInRange wDb.attendance ⟨2024, 2, 1⟩ ⟨2024, 2, 29⟩) wDb.advances
    wDb.paymentStatuses wEmp

theorem C2_witness :
    wMonthRow.allowances = 0 ∧
    wMonthRow.gross_pay = wMonthRow.base_salary + wMonthRow.allowances +
      wMonthRow.overtime_rate + wMonthRow.overtime_pay ∧
    wMonthRow.unpaid_leave_deduction = (wMonthRow.unpaid_leave_days : Rat) * 1000 ∧
    wMonthRow.net_pay = wMonthRow.gross_pay - wMonthRow.late_deduction -
      wMonthRow.unpaid_leave_deduction - wMonthRow.advance_deduction :=
  (C2_month_row_formulas "2024-02" wDb
    (buildMonth ⟨2024, 2, 1⟩ ⟨2024, 2, 29⟩ "2024-02" wDb) (by with_unfolding_all rfl)).1
    wMonthRow (by rw [buildMonth_rows]; exact List.mem_map.2 ⟨wEmp, by decide, rfl⟩)

/-! ## Claim C3 -/

theorem sum6_stepMoneyCore (a : AttendanceRecord) (acc : AttAcc) :
    sum6 (stepMoneyCore a acc) = sum6 acc := by
  simp only [stepMoneyCore, sum6]
  split_ifs <;> rfl

theorem sum6_stepFine (a : AttendanceRecord) (acc : AttAcc) :
    sum6 (stepFine a acc) = sum6 acc := by
  simp only [stepFine, sum6]
  split_ifs <;> rfl

theorem sum6_stepCount1 (a? : Option AttendanceRecord) (acc : AttAcc) :
    sum6 (stepCount1 a? acc) = sum6 acc + 1 := by
  cases a? with
  | none => simp [stepCount1, sum6]; omega
  | some a =>
    simp only [stepCount1, sum6]
    split_ifs <;> simp only [sum6] <;> omega

theorem sum6_stepRange1 (a? : Option AttendanceRecord) (acc : AttAcc) :
    sum6 (stepRange1 a? acc) = sum6 acc + 1 := by
  cases a? with
  | none => simpa [stepRange1] using sum6_stepCount1 none acc
  | some a =>
    show sum6 (stepFine a (stepMoneyCore a (stepCount1 (some a) acc))) = sum6 acc + 1
    rw [sum6_stepFine, sum6_stepMoneyCore, sum6_stepCount1]

theorem sum6_foldRange1 (l : List (Option AttendanceRecord)) (acc : AttAcc) :
    sum6 (l.foldl (fun acc a? => stepRange1 a? acc) acc) = sum6 acc + l.length := by
  induction l generalizing acc with
  | nil => simp
  | cons x xs ih =>
    rw [List.foldl_cons, ih, sum6_stepRange1]
    simp
    omega

theorem dateRange_length (d : PDate) (n : Nat) : (dateRange d n).length = n := by
  induction n generalizing d with
  | zero => rfl
  | succ k ih => simp [dateRange, ih]

theorem sum6_aggRange1 (atts : List AttendanceRecord) (empId : String) (d : PDate) (n : Nat) :
    sum6 (aggRange1 atts empId (dateRange d n)) = n := by
  unfold aggRange1
  rw [sum6_foldRange1]
  simp [attSeq, sum6, initAcc, dateRange_length]

theorem sum5_stepMoneyCore (a : AttendanceRecord) (acc : AttAcc) :
    sum5 (stepMoneyCore a acc) = sum5 acc := by
  simp only [stepMoneyCore, sum5]
  split_ifs <;> rfl

theorem sum5_stepFine (a : AttendanceRecord) (acc : AttAcc) :
    sum5 (stepFine a acc) = sum5 acc := by
  simp only [stepFine, sum5]
  split_ifs <;> rfl

theorem sum5_stepRange2 (a? : Option AttendanceRecord) (acc : AttAcc) :
    sum5 (stepRange2 a? acc) ≤ sum5 acc + 1 := by
  cases a? with
  | none => simp [stepRange2, sum5]
  | some a =>
    show sum5 (stepFine a (stepMoneyCore a _)) ≤ sum5 acc + 1
    rw [sum5_stepFine, sum5_stepMoneyCore]
    split_ifs <;> simp only [sum5] <;> omega

theorem sum5_foldRange2 (l : List (Option AttendanceRecord)) (acc : AttAcc) :
    sum5 (l.foldl (fun acc a? => stepRange2 a? acc) acc) ≤ sum5 acc + l.length := by
  induction l generalizing acc with
  | nil => simp
  | cons x xs ih =>
    rw [List.foldl_cons]
    calc sum5 ((xs.foldl (fun acc a? => stepRange2 a? acc)) (stepRange2 x acc)) ≤
        sum5 (stepRange2 x acc) + xs.length := ih _
      _ ≤ sum5 acc + (x :: xs).length := by
          have := sum5_stepRange2 x acc
          simp
          omega

theorem sum5_stepMonth (acc : AttAcc) (a : AttendanceRecord) :
    sum5 (stepMonth acc a) = sum5 acc + (if recognizedM a then 1 else 0) := by
  show sum5 (stepMoneyCore a _) = _
  rw [sum5_stepMoneyCore]
  simp only [recognizedM]
  by_cases h1 : normLS (pyOrStr a.status "") = "present"
  · rw [if_pos h1]; simp [h1, sum5]; omega
  · rw [if_neg h1]
    by_cases h2 : normLS (pyOrStr a.status "") = "late"
    · rw [if_pos h2]; simp [h1, h2, sum5]; omega
    · rw [if_neg h2]
      by_cases h3 : normLS (pyOrStr a.status "") = "absent"
      · rw [if_pos h3]; simp [h1, h2, h3, sum5]; omega
      · rw [if_neg h3]
        by_cases h4 : normLS (pyOrStr a.status "") = "leave"
        · rw [if_pos h4]
          by_cases h5 : normLS (pyOrStr a.leave_type "") = "unpaid"
          · rw [if_pos h5]; simp [h1, h2, h3, h4, sum5]; omega
          · rw [if_neg h5]; simp [h1, h2, h3, h4, sum5]; omega
        · rw [if_neg h4]; simp [h1, h2, h3, h4, sum5]

theorem sum5_foldMonth (l : List AttendanceRecord) (acc : AttAcc) :
    sum5 (l.foldl stepMonth acc) = sum5 acc + (l.countP recognizedM : Int) := by
  induction l generalizing acc with
  | nil => simp
  | cons x xs ih =>
    rw [List.foldl_cons, ih, sum5_stepMonth]
    rw [List.countP_cons]
    split_ifs <;> simp <;> omega

theorem rowRange1_partition (startD endD : PDate) (wd : Int) (label : String)
    (atts : List AttendanceRecord) (sheets : List PayrollSheetEntry)
    (advs : List AdvanceDeduction) (stats : List PaymentStatus) (e : Employee)
    (hwd : 0 ≤ wd) :
    (rowRange1 startD endD wd label atts sheets advs stats e).present_days +
      (rowRange1 startD endD wd label atts sheets advs stats e).late_days +
      (rowRange1 startD endD wd label atts sheets advs stats e).absent_days +
      (rowRange1 startD endD wd label atts sheets advs stats e).paid_leave_days +
      (rowRange1 startD endD wd label atts sheets advs stats e).unpaid_leave_days +
      (rowRange1 startD endD wd label atts sheets advs stats e).unmarked_days = wd := by
  show sum6 (aggRange1 atts (pyStrip (pyOrStr e.fss_no (pyOrStr e.serial_no (toString e.id))))
    (dateRange startD wd.toNat)) = wd
  rw [sum6_aggRange1]
  exact Int.toNat_of_nonneg hwd

theorem rowRange2_partition (startD endD : PDate) (wd : Int) (label : String)
    (atts : List AttendanceRecord) (sheets : List PayrollSheetEntry)
    (advs : List AdvanceDeduction) (e : Employee) (hwd : 0 ≤ wd) :
    (rowRange2 startD endD wd label atts sheets advs e).present_days +
      (rowRange2 startD endD wd label atts sheets advs e).late_days +
      (rowRange2 startD endD wd label atts sheets advs e).absent_days +
      (rowRange2 startD endD wd label atts sheets advs e).paid_leave_days +
      (rowRange2 startD endD wd label atts sheets advs e).unpaid_leave_days ≤ wd := by
  show sum5 (aggRange2 atts (pyStrip (pyOrStr e.fss_no (pyOrStr e.serial_no (toString e.id))))
    (dateRange startD wd.toNat)) ≤ wd
  have h := sum5_foldRange2
    (attSeq atts (pyStrip (pyOrStr e.fss_no (pyOrStr e.serial_no (toString e.id))))
      (dateRange startD wd.toNat)) initAcc
  have hl : (attSeq atts (pyStrip (pyOrStr e.fss_no (pyOrStr e.serial_no (toString e.id))))
      (dateRange startD wd.toNat)).length = wd.toNat := by
    simp [attSeq, dateRange_length]
  rw [hl] at h
  have h0 : sum5 initAcc = 0 := rfl
  rw [h0] at h
  have h2 : (wd.toNat : Int) = wd := Int.toNat_of_nonneg hwd
  unfold aggRange2
  omega

theorem rowMonth_counts (label : String) (atts : List AttendanceRecord)
    (advs : List AdvanceDeduction) (stats : List PaymentStatus) (e : Employee) :
    (rowMonth label atts advs stats e).present_days +
      (rowMonth label atts advs stats e).late_days +
      (rowMonth label atts advs stats e).absent_days +
      (rowMonth label atts advs stats e).paid_leave_days +
      (rowMonth label atts advs stats e).unpaid_leave_days =
      ((monthAttFor atts (pyOrStr e.fss_no (pyOrStr e.serial_no (toString e.id)))).countP
        recognizedM : Int) := by
  show sum5 (aggMonth atts (pyOrStr e.fss_no (pyOrStr e.serial_no (toString e.id)))) = _
  unfold aggMonth
  rw [sum5_foldMonth]
  have h0 : sum5 initAcc = 0 := rfl
  rw [h0]
  omega

/-- Claim C3 (amended): the attendance categories partition the period only
in the payroll.py date-range report, where present + late + absent +
paid-leave + unpaid-leave + unmarked = working_days for every row. In the
payroll2 range report there is no unmarked counter and days without a record
(or with an unrecognized status) are counted nowhere, so the five counters
only satisfy sum ≤ working_days; in the calendar-month report days without a
record are never visited and the five counters sum to the number of the
employee's attendance records in the month with a recognized status, not to
working_days. -/
theorem C3_partition (f t : String) (mo : Option String) (moM : String) (db : DB)
    (rep1 : Report1) (rep2 : Report2) (repM : ReportM)
    (h1 : payrollRangeReport f t mo db = .ok rep1)
    (h2 : payroll2RangeReport f t mo db = .ok rep2)
    (hM : payrollReport moM db = .ok repM) :
    (∀ r ∈ rep1.rows, r.present_days + r.late_days + r.absent_days + r.paid_leave_days +
        r.unpaid_leave_days + r.unmarked_days = r.working_days) ∧
    (∀ r ∈ rep2.rows, r.present_days + r.late_days + r.absent_days + r.paid_leave_days +
        r.unpaid_leave_days ≤ r.working_days) ∧
    (∀ startD endD, parseMonth moM = .ok (startD, endD) → ∀ r ∈ repM.rows,
      r.present_days + r.late_days + r.absent_days + r.paid_leave_days + r.unpaid_leave_days =
        ((monthAttFor (attInRange db.attendance startD endD) r.employee_id).countP
          recognizedM : Int)) := by
  obtain ⟨s1, e1, hf1, ht1, hlt1, hrep1⟩ := payrollRangeReport_ok h1
  obtain ⟨s2, e2, hf2, ht2, hlt2, hrep2⟩ := payroll2RangeReport_ok h2
  obtain ⟨sM, eM, hmM, hrepM⟩ := payrollReport_ok hM
  subst hrep1; subst hrep2; subst hrepM
  have hwd1 : 0 ≤ daysInclusive s1 e1 := by
    simp only [pyDateLt, decide_eq_false_iff_not, not_lt] at hlt1
    unfold daysInclusive
    omega
  have hwd2 : 0 ≤ daysInclusive s2 e2 := by
    simp only [pyDateLt, decide_eq_false_iff_not, not_lt] at hlt2
    unfold daysInclusive
    omega
  refine ⟨?_, ?_, ?_⟩
  · intro r hr
    rw [buildRange1_rows] at hr
    obtain ⟨emp, _, rfl⟩ := List.mem_map.1 hr
    exact rowRange1_partition s1 e1 (daysInclusive s1 e1) _ _ _ _ _ emp hwd1
  · intro r hr
    rw [buildRange2_rows] at hr
    obtain ⟨emp, _, rfl⟩ := List.mem_map.1 hr
    exact rowRange2_partition s2 e2 (daysInclusive s2 e2) _ _ _ _ emp hwd2
  · intro startD endD hpm r hr
    rw [hmM] at hpm
    injection hpm with hpm
    obtain ⟨rfl, rfl⟩ : sM = startD ∧ eM = endD := by
      constructor <;> [exact congrArg Prod.fst hpm; exact congrArg Prod.snd hpm]
    rw [buildMonth_rows] at hr
    obtain ⟨emp, _, rfl⟩ := List.mem_map.1 hr
    exact rowMonth_counts moM _ _ _ emp

/-- C3 counterexample fixture: one employee. -/
def c3Emp : Employee :=
  { id := 1, serial_no := some "1", fss_no := some "E1", eobi_no := none,
    name := some "Bob", category := none, salary := some "31000", created_at := none }

/-- C3 counterexample fixture: a single present day in January 2024. -/
def c3Att : AttendanceRecord :=
  { employee_id := some "E1", date := ⟨2024, 1, 5⟩, status := some "present",
    leave_type := none, overtime_minutes := none, overtime_rate := none,
    late_minutes := none, late_deduction := none, fine_amount := none }

/-- C3 counterexample fixture: the store. -/
def c3Db : DB :=
  { employees := [c3Emp], attendance := [c3Att], sheets := [], advances := [],
    paymentStatuses := [] }

/-- Claim C3 counterexample: in the calendar-month report for 2024-01 (31
inclusive days) an employee with a single present record gets
present + late + absent + paid-leave + unpaid-leave = 1, not 31: the five
categories do not partition the period in the month variant. -/
theorem C3_counterexample :
    (payrollReport "2024-01" c3Db).map (fun rep => rep.rows.map (fun r =>
      r.present_days + r.late_days + r.absent_days + r.paid_leave_days +
        r.unpaid_leave_days)) = .ok [1] ∧
    parseMonth "2024-01" = .ok (⟨2024, 1, 1⟩, ⟨2024, 1, 31⟩) ∧
    daysInclusive ⟨2024, 1, 1⟩ ⟨2024, 1, 31⟩ = 31 ∧
    (1 : Int) ≠ 31 := by
  refine ⟨by with_unfolding_all rfl, by with_unfolding_all rfl,
    by with_unfolding_all rfl, by omega⟩

theorem C3_witness :
    wRow1.present_days + wRow1.late_days + wRow1.absent_days + wRow1.paid_leave_days +
      wRow1.unpaid_leave_days + wRow1.unmarked_days = wRow1.working_days :=
  (C3_partition "2024-02-01" "2024-02-02" (some "2024-02") "2024-02" wDb
    (buildRange1 ⟨2024, 2, 1⟩ ⟨2024, 2, 2⟩ (some "2024-02") wDb)
    (buildRange2 ⟨2024, 2, 1⟩ ⟨2024, 2, 2⟩ (some "2024-02") wDb)
    (buildMonth ⟨2024, 2, 1⟩ ⟨2024, 2, 29⟩ "2024-02" wDb)
    (by with_unfolding_all rfl) (by with_unfolding_all rfl) (by with_unfolding_all rfl)).1
    wRow1 (by rw [buildRange1_rows]; exact List.mem_map.2 ⟨wEmp, by decide, rfl⟩)

/-! ## Claim C5 -/

/-- A record whose normalized status is exactly "absent". -/
def absentP (a : AttendanceRecord) : Bool := normLS (pyOrStr a.status "") == "absent"

theorem absent_stepMoneyCore (a : AttendanceRecord) (acc : AttAcc) :
    (stepMoneyCore a acc).absent_days = acc.absent_days := by
  simp only [stepMoneyCore]
  split_ifs <;> rfl

theorem absent_stepMonth (acc : AttAcc) (a : AttendanceRecord) :
    (stepMonth acc a).absent_days = acc.absent_days + (if absentP a then 1 else 0) := by
  show (stepMoneyCore a _).absent_days = _
  rw [absent_stepMoneyCore]
  simp only [absentP]
  by_cases h1 : normLS (pyOrStr a.status "") = "present"
  · rw [if_pos h1]; simp [h1]
  · rw [if_neg h1]
    by_cases h2 : normLS (pyOrStr a.status "") = "late"
    · rw [if_pos h2]; simp [h1, h2]
    · rw [if_neg h2]
      by_cases h3 : normLS (pyOrStr a.status "") = "absent"
      · rw [if_pos h3]; simp [h3]
      · rw [if_neg h3]
        by_cases h4 : normLS (pyOrStr a.status "") = "leave"
        · rw [if_pos h4]
          by_cases h5 : normLS (pyOrStr a.leave_type "") = "unpaid"
          · rw [if_pos h5]; simp [h3, h4]
          · rw [if_neg h5]; simp [h3, h4]
        · rw [if_neg h4]; simp [h3]

theorem absent_foldMonth (l : List AttendanceRecord) (acc : AttAcc) :
    (l.foldl stepMonth acc).absent_days = acc.absent_days + (l.countP absentP : Int) := by
  induction l generalizing acc with
  | nil => simp
  | cons x xs ih =>
    rw [List.foldl_cons, ih, absent_stepMonth, List.countP_cons]
    split_ifs <;> simp <;> omega

theorem rowMonth_absent (label : String) (atts : List AttendanceRecord)
    (advs : List AdvanceDeduction) (stats : List PaymentStatus) (e : Employee) :
    (rowMonth label atts advs stats e).absent_days =
      ((monthAttFor atts (pyOrStr e.fss_no (pyOrStr e.serial_no (toString e.id)))).countP
        absentP : Int) := by
  show (aggMonth atts (pyOrStr e.fss_no (pyOrStr e.serial_no (toString e.id)))).absent_days = _
  unfold aggMonth
  rw [absent_foldMonth]
  norm_num
  rfl

/-- Claim C5 (amended): in the calendar-month report a day for which the
employee has no matching attendance record is ignored entirely; absent_days
counts exactly the employee's records in the month whose normalized status is
"absent", and no other day contributes to it. -/
theorem C5_month_absent (mo : String) (db : DB) (rep : ReportM)
    (h : payrollReport mo db = .ok rep) :
    ∀ startD endD, parseMonth mo = .ok (startD, endD) → ∀ r ∈ rep.rows,
      r.absent_days =
        ((monthAttFor (attInRange db.attendance startD endD) r.employee_id).countP
          absentP : Int) := by
  obtain ⟨sM, eM, hmM, hrepM⟩ := payrollReport_ok h
  subst hrepM
  intro startD endD hpm r hr
  rw [hmM] at hpm
  injection hpm with hpm
  obtain ⟨rfl, rfl⟩ : sM = startD ∧ eM = endD := by
    constructor <;> [exact congrArg Prod.fst hpm; exact congrArg Prod.snd hpm]
  rw [buildMonth_rows] at hr
  obtain ⟨emp, _, rfl⟩ := List.mem_map.1 hr
  exact rowMonth_absent mo _ _ _ emp

/-- C5 counterexample fixture: an employee with no attendance at all. -/
def c5Emp : Employee :=
  { id := 1, serial_no := some "1", fss_no := some "E1", eobi_no := none,
    name := some "Cid", category := none, salary := some "31000", created_at := none }

/-- C5 counterexample fixture: the store, with an empty attendance table. -/
def c5Db : DB :=
  { employees := [c5Emp], attendance := [], sheets := [], advances := [],
    paymentStatuses := [] }

/-- Claim C5 counterexample: for 2024-01 every one of the 31 days has no
matching record, yet the calendar-month report computes absent_days = 0, not
31, so a day with no record does NOT count toward absent_days. -/
theorem C5_counterexample :
    (payrollReport "2024-01" c5Db).map (fun rep => rep.rows.map (fun r => r.absent_days)) =
      .ok [0] ∧
    parseMonth "2024-01" = .ok (⟨2024, 1, 1⟩, ⟨2024, 1, 31⟩) ∧
    daysInclusive ⟨2024, 1, 1⟩ ⟨2024, 1, 31⟩ = 31 ∧
    (0 : Int) ≠ 31 := by
  refine ⟨by with_unfolding_all rfl, by with_unfolding_all rfl,
    by with_unfolding_all rfl, by omega⟩

theorem C5_witness :
    wMonthRow.absent_days =
      ((monthAttFor (attInRange wDb.attendance ⟨2024, 2, 1⟩ ⟨2024, 2, 29⟩)
        wMonthRow.employee_id).countP absentP : Int) :=
  C5_month_absent "2024-02" wDb (buildMonth ⟨2024, 2, 1⟩ ⟨2024, 2, 29⟩ "2024-02" wDb)
    (by with_unfolding_all rfl) ⟨2024, 2, 1⟩ ⟨2024, 2, 29⟩ (by with_unfolding_all rfl)
    wMonthRow (by rw [buildMonth_rows]; exact List.mem_map.2 ⟨wEmp, by decide, rfl⟩)

/-! ## Claim C4 -/

theorem find?_upsertFirst (p : α → Bool) (f : α → α) (mk : α) (l : List α)
    (hf : ∀ x, p x = true → p (f x) = true) (hmk : p mk = true) :
    (upsertFirst p f mk l).find? p =
      some (match l.find? p with | some x => f x | none => mk) := by
  induction l with
  | nil => simp [upsertFirst, List.find?, hmk]
  | cons x xs ih =>
    by_cases hx : p x = true
    · rw [show upsertFirst p f mk (x :: xs) = f x :: xs by simp [upsertFirst, hx]]
      rw [List.find?_cons_of_pos _ (hf x hx), List.find?_cons_of_pos _ hx]
    · rw [show upsertFirst p f mk (x :: xs) = x :: upsertFirst p f mk xs by
        simp [upsertFirst, hx]]
      rw [List.find?_cons_of_neg _ (by simpa using hx),
        List.find?_cons_of_neg _ (by simpa using hx), ih]

/-- Claim C4: upserting a payment status to "paid" recomputes the
calendar-month report at that instant and stores the matching row's net_pay
as the snapshot (null when no report row matches the employee identifier,
with the write still succeeding), and an immediate read returns exactly the
stored row; upserting "unpaid" stores status "unpaid" with a null snapshot
regardless of prior state, and the read-back agrees. -/
theorem C4_payment_status (db : DB) (payload : PSUpsert) :
    (pyLower (pyStrip (pyOrStr payload.status "")) = "paid" →
      ∀ rep, payrollReport payload.month db = .ok rep →
        (upsertPaymentStatus payload db).isOk = true ∧
        ∀ r db', upsertPaymentStatus payload db = .ok (r, db') →
          r.status = some "paid" ∧
          r.net_pay_snapshot =
            (rep.rows.find? (fun m => m.employee_id == payload.employee_id)).map
              (fun m => m.net_pay) ∧
          getPaymentStatus payload.month payload.employee_id db' = (r, db')) ∧
    (pyLower (pyStrip (pyOrStr payload.status "")) = "unpaid" →
      (upsertPaymentStatus payload db).isOk = true ∧
      ∀ r db', upsertPaymentStatus payload db = .ok (r, db') →
        r.status = some "unpaid" ∧ r.net_pay_snapshot = none ∧
        getPaymentStatus payload.month payload.employee_id db' = (r, db')) := by
  constructor
  · intro hst rep hrep
    constructor
    · simp only [upsertPaymentStatus, hst, hrep]
      norm_num
      rfl
    · intro r db' heq
      simp only [upsertPaymentStatus, hst, hrep] at heq
      norm_num at heq
      obtain ⟨h1, h2⟩ := heq
      subst h1; subst h2
      refine ⟨?_, ?_, ?_⟩
      · cases hrow : db.paymentStatuses.find? (psMatches payload.month payload.employee_id) <;>
          rfl
      · cases hrow : db.paymentStatuses.find? (psMatches payload.month payload.employee_id) <;>
          simp
      · cases hrow : db.paymentStatuses.find? (psMatches payload.month payload.employee_id) with
        | none =>
          simp only [getPaymentStatus]
          rw [find?_upsertFirst _ _ _ _ (by intro x hx; exact hx) (by simp [psMatches]), hrow]
        | some r0 =>
          simp only [getPaymentStatus]
          rw [find?_upsertFirst _ _ _ _ (by intro x hx; exact hx) (by simp [psMatches]), hrow]
  · intro hst
    constructor
    · simp only [upsertPaymentStatus, hst]
      norm_num
      rfl
    · intro r db' heq
      simp only [upsertPaymentStatus, hst] at heq
      simp only [if_neg (show ¬("unpaid" : String) = "paid" by decide)] at heq
      norm_num at heq
      obtain ⟨h1, h2⟩ := heq
      subst h1; subst h2
      refine ⟨?_, ?_, ?_⟩
      · cases hrow : db.paymentStatuses.find? (psMatches payload.month payload.employee_id) <;>
          rfl
      · cases hrow : db.paymentStatuses.find? (psMatches payload.month payload.employee_id) <;>
          simp
      · cases hrow : db.paymentStatuses.find? (psMatches payload.month payload.employee_id) with
        | none =>
          simp only [getPaymentStatus]
          rw [find?_upsertFirst _ _ _ _ (by intro x hx; exact hx) (by simp [psMatches]), hrow]
        | some r0 =>
          simp only [getPaymentStatus]
          rw [find?_upsertFirst _ _ _ _ (by intro x hx; exact hx) (by simp [psMatches]), hrow]

/-- C4 witness fixture: a "paid" upsert payload (untrimmed, mixed case). -/
def c4PayloadPaid : PSUpsert :=
  { month := "2024-02", employee_id := "E1", status := some " Paid " }

/-- C4 witness fixture: an "unpaid" upsert payload. -/
def c4PayloadUnpaid : PSUpsert :=
  { month := "2024-02", employee_id := "E1", status := some "unpaid" }

/-- The row the paid upsert writes on the witness store (the snapshot 30450
is the month report's net pay: 31000 + 50 + 100 - 700). -/
def c4Row : PaymentStatus :=
  { month := "2024-02", employee_id := "E1", status := some "paid",
    employee_db_id := some 1, net_pay_snapshot := some 30450 }

/-- The store after the paid upsert. -/
def c4Db' : DB := { wDb with paymentStatuses := [c4Row] }

theorem C4_witness :
    c4Row.status = some "paid" ∧
    c4Row.net_pay_snapshot =
      (((buildMonth ⟨2024, 2, 1⟩ ⟨2024, 2, 29⟩ "2024-02" wDb).rows.find?
        (fun m => m.employee_id == "E1")).map (fun m => m.net_pay)) ∧
    getPaymentStatus "2024-02" "E1" c4Db' = (c4Row, c4Db') ∧
    (upsertPaymentStatus c4PayloadUnpaid wDb).isOk = true :=
  have h := ((C4_payment_status wDb c4PayloadPaid).1 (by with_unfolding_all rfl)
    (buildMonth ⟨2024, 2, 1⟩ ⟨2024, 2, 29⟩ "2024-02" wDb) (by with_unfolding_all rfl)).2
    c4Row c4Db' (by with_unfolding_all rfl)
  ⟨h.1, h.2.1, h.2.2,
    ((C4_payment_status wDb c4PayloadUnpaid).2 (by with_unfolding_all rfl)).1⟩

/-! ## Claim C6 -/

/-- Two sheet rows that agree on every field except the pre/cur day
overrides. -/
def sheetAgreeExceptPreCur (a b : PayrollSheetEntry) : Prop :=
  a.employee_db_id = b.employee_db_id ∧ a.from_date = b.from_date ∧ a.to_date = b.to_date ∧
  a.leave_encashment_days = b.leave_encashment_days ∧ a.allow_other = b.allow_other ∧
  a.eobi = b.eobi ∧ a.tax = b.tax ∧ a.fine_adv_extra = b.fine_adv_extra ∧
  a.remarks = b.remarks ∧ a.bank_cash = b.bank_cash

/-- The pay-relevant outputs of a payroll.py range row. -/
def payQuad1 (r : Row1) : Int × Rat × Rat × Rat :=
  (r.total_days, r.total_salary, r.gross_pay, r.net_pay)

/-- The pay-relevant outputs of a payroll2 range row. -/
def payQuad2 (r : Row2) : Int × Rat × Rat × Rat :=
  (r.total_days, r.total_salary, r.gross_pay, r.net_pay)

theorem sheetLookup_map (m : PayrollSheetEntry → PayrollSheetEntry)
    (hm : ∀ s, sheetAgreeExceptPreCur (m s) s)
    (sheets : List PayrollSheetEntry) (startD endD : PDate) (id : Nat) :
    sheetLookup (sheets.map m) startD endD id = (sheetLookup sheets startD endD id).map m := by
  unfold sheetLookup
  rw [List.filter_map m, List.filter_map m, List.getLast?_map]
  have hP : ((fun r : PayrollSheetEntry =>
      decide (r.from_date = startD) && decide (r.to_date = endD)) ∘ m) =
      (fun r : PayrollSheetEntry => decide (r.from_date = startD) && decide (r.to_date = endD)) := by
    funext s
    obtain ⟨_, h2, h3, _⟩ := hm s
    simp [Function.comp, h2, h3]
  have hQ : ((fun r : PayrollSheetEntry => decide (r.employee_db_id = id)) ∘ m) =
      (fun r : PayrollSheetEntry => decide (r.employee_db_id = id)) := by
    funext s
    obtain ⟨h1, _⟩ := hm s
    simp [Function.comp, h1]
  rw [hP, hQ]

theorem rowRange1Core_payQuad (startD endD : PDate) (wd : Int) (label : String)
    (atts : List AttendanceRecord) (advs : List AdvanceDeduction)
    (stats : List PaymentStatus) (e : Employee) (m : PayrollSheetEntry → PayrollSheetEntry)
    (hm : ∀ s, sheetAgreeExceptPreCur (m s) s) (sheet : Option PayrollSheetEntry) :
    payQuad1 (rowRange1Core startD endD wd label atts advs stats e (sheet.map m)) =
      payQuad1 (rowRange1Core startD endD wd label atts advs stats e sheet) := by
  cases sheet with
  | none => rfl
  | some s =>
    obtain ⟨h1, h2, h3, h4, h5, h6, h7, h8, h9, h10⟩ := hm s
    simp only [Option.map, payQuad1, rowRange1Core]
    rw [h4, h5, h6, h7, h8]

theorem rowRange2Core_payQuad (startD endD : PDate) (wd : Int) (label : String)
    (atts : List AttendanceRecord) (advs : List AdvanceDeduction) (e : Employee)
    (m : PayrollSheetEntry → PayrollSheetEntry)
    (hm : ∀ s, sheetAgreeExceptPreCur (m s) s) (sheet : Option PayrollSheetEntry) :
    payQuad2 (rowRange2Core startD endD wd label atts advs e (sheet.map m)) =
      payQuad2 (rowRange2Core startD endD wd label atts advs e sheet) := by
  cases sheet with
  | none => rfl
  | some s =>
    obtain ⟨h1, h2, h3, h4, h5, h6, h7, h8, h9, h10⟩ := hm s
    simp only [Option.map, payQuad2, rowRange2Core]
    rw [h4, h5, h6, h7, h8]

theorem buildRange1_map_sheets (m : PayrollSheetEntry → PayrollSheetEntry)
    (hm : ∀ s, sheetAgreeExceptPreCur (m s) s) (startD endD : PDate) (mo : Option String)
    (db : DB) :
    (buildRange1 startD endD mo { db with sheets := db.sheets.map m }).rows.map payQuad1 =
      (buildRange1 startD endD mo db).rows.map payQuad1 := by
  rw [buildRange1_rows, buildRange1_rows]
  rw [List.map_map, List.map_map]
  apply List.map_congr_left
  intro e _
  show payQuad1 (rowRange1 startD endD _ _ _ (db.sheets.map m) _ _ e) =
    payQuad1 (rowRange1 startD endD _ _ _ db.sheets _ _ e)
  unfold rowRange1
  rw [sheetLookup_map m hm]
  exact rowRange1Core_payQuad _ _ _ _ _ _ _ _ m hm _

theorem buildRange2_map_sheets (m : PayrollSheetEntry → PayrollSheetEntry)
    (hm : ∀ s, sheetAgreeExceptPreCur (m s) s) (startD endD : PDate) (mo : Option String)
    (db : DB) :
    (buildRange2 startD endD mo { db with sheets := db.sheets.map m }).rows.map payQuad2 =
      (buildRange2 startD endD mo db).rows.map payQuad2 := by
  rw [buildRange2_rows, buildRange2_rows]
  rw [List.map_map, List.map_map]
  apply List.map_congr_left
  intro e _
  show payQuad2 (rowRange2 startD endD _ _ _ (db.sheets.map m) _ e) =
    payQuad2 (rowRange2 startD endD _ _ _ db.sheets _ e)
  unfold rowRange2
  rw [sheetLookup_map m hm]
  exact rowRange2Core_payQuad _ _ _ _ _ _ _ m hm _

/-- Claim C6 (amended): in the payroll.py range report pre_days and cur_days
are the sheet-override values clamped to be nonnegative (0 when absent), but
the payroll2 range report takes them unclamped, so a negative override passes
through. In both engines they are pure display fields: two stores whose sheet
tables differ only in the pre/cur day overrides produce identical
total_days, total_salary, gross_pay and net_pay for every row. -/
theorem C6_pre_cur_days (f t : String) (mo : Option String) (db : DB)
    (m : PayrollSheetEntry → PayrollSheetEntry)
    (hm : ∀ s, sheetAgreeExceptPreCur (m s) s) :
    (∀ rep1, payrollRangeReport f t mo db = .ok rep1 →
      ∀ startD endD, parseDate f "from_date" = .ok startD → parseDate t "to_date" = .ok endD →
        ∀ r ∈ rep1.rows,
          r.pre_days = max 0
            (((sheetLookup db.sheets startD endD r.employee_db_id).bind
              (fun s => s.pre_days_override)).getD 0) ∧
          r.cur_days = max 0
            (((sheetLookup db.sheets startD endD r.employee_db_id).bind
              (fun s => s.cur_days_override)).getD 0)) ∧
    (∀ rep2, payroll2RangeReport f t mo db = .ok rep2 →
      ∀ startD endD, parseDate f "from_date" = .ok startD → parseDate t "to_date" = .ok endD →
        ∀ r ∈ rep2.rows,
          r.pre_days = ((sheetLookup db.sheets startD endD r.employee_db_id).bind
            (fun s => s.pre_days_override)).getD 0 ∧
          r.cur_days = ((sheetLookup db.sheets startD endD r.employee_db_id).bind
            (fun s => s.cur_days_override)).getD 0) ∧
    ((payrollRangeReport f t mo { db with sheets := db.sheets.map m }).map
        (fun rep => rep.rows.map payQuad1) =
      (payrollRangeReport f t mo db).map (fun rep => rep.rows.map payQuad1)) ∧
    ((payroll2RangeReport f t mo { db with sheets := db.sheets.map m }).map
        (fun rep => rep.rows.map payQuad2) =
      (payroll2RangeReport f t mo db).map (fun rep => rep.rows.map payQuad2)) := by
  refine ⟨?_, ?_, ?_, ?_⟩
  · intro rep1 h1 startD endD hf ht r hr
    obtain ⟨s1, e1, hf1, ht1, hlt1, hrep1⟩ := payrollRangeReport_ok h1
    rw [hf1] at hf
    injection hf with hf
    rw [ht1] at ht
    injection ht with ht
    subst hf; subst ht; subst hrep1
    rw [buildRange1_rows] at hr
    obtain ⟨emp, _, rfl⟩ := List.mem_map.1 hr
    constructor
    · rw [← intMaxIf]; rfl
    · rw [← intMaxIf]; rfl
  · intro rep2 h2 startD endD hf ht r hr
    obtain ⟨s2, e2, hf2, ht2, hlt2, hrep2⟩ := payroll2RangeReport_ok h2
    rw [hf2] at hf
    injection hf with hf
    rw [ht2] at ht
    injection ht with ht
    subst hf; subst ht; subst hrep2
    rw [buildRange2_rows] at hr
    obtain ⟨emp, _, rfl⟩ := List.mem_map.1 hr
    exact ⟨rfl, rfl⟩
  · unfold payrollRangeReport
    cases hf : parseDate f "from_date" with
    | error er => rfl
    | ok startD =>
      cases ht : parseDate t "to_date" with
      | error er => rfl
      | ok endD =>
        dsimp only
        by_cases hlt : pyDateLt endD startD = true
        · rw [if_pos hlt, if_pos hlt]
        · rw [if_neg hlt, if_neg hlt]
          simp only [Except.map]
          rw [buildRange1_map_sheets m hm]
  · unfold payroll2RangeReport
    cases hf : parseDate f "from_date" with
    | error er => rfl
    | ok startD =>
      cases ht : parseDate t "to_date" with
      | error er => rfl
      | ok endD =>
        dsimp only
        by_cases hlt : pyDateLt endD startD = true
        · rw [if_pos hlt, if_pos hlt]
        · rw [if_neg hlt, if_neg hlt]
          simp only [Except.map]
          rw [buildRange2_map_sheets m hm]

/-- Claim C6 counterexample: with a sheet override pre_days_override = -5 for
the period, the payroll2 range report emits pre_days = -5: the value is not
clamped to be nonnegative. -/
theorem C6_counterexample :
    (payroll2RangeReport "2024-02-01" "2024-02-02" (some "2024-02") wDb).map
        (fun rep => rep.rows.map (fun r => r.pre_days)) = .ok [-5] ∧
    wSheet.pre_days_override = some (-5) ∧
    ¬ (0 : Int) ≤ -5 := by
  refine ⟨by with_unfolding_all rfl, rfl, by omega⟩

theorem C6_witness :
    wRow1.pre_days = max 0
      (((sheetLookup wDb.sheets ⟨2024, 2, 1⟩ ⟨2024, 2, 2⟩ wRow1.employee_db_id).bind
        (fun s => s.pre_days_override)).getD 0) ∧
    wRow1.cur_days = max 0
      (((sheetLookup wDb.sheets ⟨2024, 2, 1⟩ ⟨2024, 2, 2⟩ wRow1.employee_db_id).bind
        (fun s => s.cur_days_override)).getD 0) :=
  ((C6_pre_cur_days "2024-02-01" "2024-02-02" (some "2024-02") wDb id
    (fun s => ⟨rfl, rfl, rfl, rfl, rfl, rfl, rfl, rfl, rfl, rfl⟩)).1
    (buildRange1 ⟨2024, 2, 1⟩ ⟨2024, 2, 2⟩ (some "2024-02") wDb) (by with_unfolding_all rfl)
    ⟨2024, 2, 1⟩ ⟨2024, 2, 2⟩ (by with_unfolding_all rfl) (by with_unfolding_all rfl)
    wRow1 (by rw [buildRange1_rows]; exact List.mem_map.2 ⟨wEmp, by decide, rfl⟩))

/-! ## Claim C7 -/

/-- Claim C7 (amended): both range engines order rows ascending by the
numeric key int(serial_no or 0), assigning the sentinel 999999 to a serial
number that does not parse as an integer. A non-parsing serial therefore
sorts after every serial parsing below 999999 — in particular after "9999",
whose key is 9999 — but not after every parsing serial (keys of 999999 or
more sort at or past the sentinel). The calendar-month report instead orders
by the store's string-ascending sort of serial_no (NULL first), under which
"10" sorts strictly before "9". -/
theorem C7_serial_order (f t : String) (mo : Option String) (moM : String) (db : DB)
    (rep1 : Report1) (rep2 : Report2) (repM : ReportM)
    (h1 : payrollRangeReport f t mo db = .ok rep1)
    (h2 : payroll2RangeReport f t mo db = .ok rep2)
    (hM : payrollReport moM db = .ok repM) :
    rep1.rows.Pairwise (fun a b => serialKey a.serial_no ≤ serialKey b.serial_no) ∧
    rep2.rows.Pairwise (fun a b => serialKey a.serial_no ≤ serialKey b.serial_no) ∧
    repM.rows.Pairwise (fun a b => serialStrKeyLt b.serial_no a.serial_no = false) ∧
    (∀ s : String, s ≠ "" → pyInt? s = none → serialKey (some s) = 999999) ∧
    serialKey (some "9999") = 9999 ∧ (9999 : Int) < 999999 ∧
    strLtB "10".data "9".data = true ∧ strLtB "9".data "10".data = false := by
  obtain ⟨s1, e1, hf1, ht1, hlt1, hrep1⟩ := payrollRangeReport_ok h1
  obtain ⟨s2, e2, hf2, ht2, hlt2, hrep2⟩ := payroll2RangeReport_ok h2
  obtain ⟨sM, eM, hpm, hrepM⟩ := payrollReport_ok hM
  subst hrep1; subst hrep2; subst hrepM
  refine ⟨?_, ?_, ?_, ?_, by decide, by decide, by decide, by decide⟩
  · rw [buildRange1_rows, List.pairwise_map]
    exact pairwise_sortByLt (fun e : Employee => serialKey e.serial_no) _
  · rw [buildRange2_rows, List.pairwise_map]
    exact pairwise_sortByLt (fun e : Employee => serialKey e.serial_no) _
  · rw [buildMonth_rows, List.pairwise_map]
    exact (pairwise_sortByLt_lt serialStrLt serialStrLt_asymm serialStrLt_trans
        (db.employees.filter (eligible eM))).imp
      (fun {a b} hab => by
        show serialStrKeyLt b.serial_no a.serial_no = false
        rw [← serialStrLt_eq_key b a]
        exact hab)
  · intro s hs hp
    simp [serialKey, truthyS, hs, hp]

/-- C7 counterexample fixture: an employee whose serial number parses to
1000000. -/
def c7EmpBig : Employee :=
  { id := 3, serial_no := some "1000000", fss_no := some "E3", eobi_no := none,
    name := some "Max", category := none, salary := some "0", created_at := none }

/-- C7 counterexample fixture: an employee with the non-numeric serial
number "N/A". -/
def c7EmpNA : Employee :=
  { id := 2, serial_no := some "N/A", fss_no := some "E2", eobi_no := none,
    name := some "Nan", category := none, salary := some "0", created_at := none }

/-- C7 counterexample fixture: the store. -/
def c7Db : DB :=
  { employees := [c7EmpBig, c7EmpNA], attendance := [], sheets := [], advances := [],
    paymentStatuses := [] }

/-- Claim C7 counterexample: the range report puts the employee whose serial
number "N/A" does not parse (sentinel key 999999) BEFORE the employee whose
serial number parses to 1000000, so a non-parsing serial does not sort after
every parsing one. -/
theorem C7_counterexample :
    (payrollRangeReport "2024-02-01" "2024-02-02" none c7Db).map
        (fun rep => rep.rows.map (fun r => r.serial_no)) =
      .ok [some "N/A", some "1000000"] ∧
    pyInt? "N/A" = none ∧ pyInt? "1000000" = some 1000000 := by
  refine ⟨by with_unfolding_all rfl, by decide, by decide⟩

/-- C7 witness fixture: an employee with serial number "9". -/
def c7Emp9 : Employee :=
  { id := 4, serial_no := some "9", fss_no := some "E9", eobi_no := none,
    name := some "Nine", category := none, salary := some "0", created_at := none }

/-- C7 witness fixture: an employee with serial number "10". -/
def c7Emp10 : Employee :=
  { id := 5, serial_no := some "10", fss_no := some "E10", eobi_no := none,
    name := some "Ten", category := none, salary := some "0", created_at := none }

/-- C7 witness fixture: a store holding only those two employees, serial "9"
stored first. -/
def c7DbM : DB :=
  { employees := [c7Emp9, c7Emp10], attendance := [], sheets := [], advances := [],
    paymentStatuses := [] }

/-- Witness for C7 at concrete stores: the payroll.py range rows of the C1
store are sorted by the numeric serial key, the calendar-month rows of the
two-employee store are sorted by the string collation, and that collation
puts the employee with serial "10" before the one with serial "9". -/
theorem C7_witness :
    (buildRange1 ⟨2024, 2, 1⟩ ⟨2024, 2, 2⟩ (some "2024-02") wDb).rows.Pairwise
      (fun a b => serialKey a.serial_no ≤ serialKey b.serial_no) ∧
    (buildMonth ⟨2024, 2, 1⟩ ⟨2024, 2, 29⟩ "2024-02" c7DbM).rows.Pairwise
      (fun a b => serialStrKeyLt b.serial_no a.serial_no = false) ∧
    (payrollReport "2024-02" c7DbM).map
        (fun rep => rep.rows.map (fun r => r.serial_no)) =
      .ok [some "10", some "9"] := by
  have h1 := C7_serial_order "2024-02-01" "2024-02-02" (some "2024-02") "2024-02" wDb
    (buildRange1 ⟨2024, 2, 1⟩ ⟨2024, 2, 2⟩ (some "2024-02") wDb)
    (buildRange2 ⟨2024, 2, 1⟩ ⟨2024, 2, 2⟩ (some "2024-02") wDb)
    (buildMonth ⟨2024, 2, 1⟩ ⟨2024, 2, 29⟩ "2024-02" wDb)
    (by with_unfolding_all rfl) (by with_unfolding_all rfl) (by with_unfolding_all rfl)
  have h2 := C7_serial_order "2024-02-01" "2024-02-02" (some "2024-02") "2024-02" c7DbM
    (buildRange1 ⟨2024, 2, 1⟩ ⟨2024, 2, 2⟩ (some "2024-02") c7DbM)
    (buildRange2 ⟨2024, 2, 1⟩ ⟨2024, 2, 2⟩ (some "2024-02") c7DbM)
    (buildMonth ⟨2024, 2, 1⟩ ⟨2024, 2, 29⟩ "2024-02" c7DbM)
    (by with_unfolding_all rfl) (by with_unfolding_all rfl) (by with_unfolding_all rfl)
  exact ⟨h1.1, h2.2.2.1, by with_unfolding_all rfl⟩

/-! ## Claim C8 -/

/-- Claim C8 (amended): whenever the month label parses, the resulting period
is the first through last calendar day of a month between 1 and 12 of a year
between 1 and 9999, and "2024-13" fails with the InvalidPeriod rejection;
but a label whose year falls outside the Python date range, such as
"0000-01", escapes as an uncaught ValueError instead, so InvalidPeriod is
not the only failure mode. -/
theorem C8_parse_month :
    (∀ s st en, parseMonth s = .ok (st, en) →
      st.day = 1 ∧ 1 ≤ st.month ∧ st.month ≤ 12 ∧ 1 ≤ st.year ∧ st.year ≤ 9999 ∧
      en = ⟨st.year, st.month, daysInMonth st.year st.month⟩) ∧
    parseMonth "2024-13" = .error (.http "month must be in YYYY-MM format") := by
  constructor
  · intro s st en h
    unfold parseMonth at h
    split at h
    · split at h
      · split at h
        · exact absurd h (by simp)
        · split at h
          · exact absurd h (by simp)
          · rename_i ys ms y mm hys hok hmm hy
            injection h with h
            have hst : st = ⟨y, mm, 1⟩ := (congrArg Prod.fst h).symm
            have hen : en = ⟨y, mm, daysInMonth y mm⟩ := (congrArg Prod.snd h).symm
            subst hst; subst hen
            push_neg at hmm hy
            exact ⟨rfl, by dsimp only; omega, by dsimp only; omega, by dsimp only; omega,
              by dsimp only; omega, rfl⟩
      · exact absurd h (by simp)
    · exact absurd h (by simp)
  · with_unfolding_all rfl

/-- Claim C8 counterexample: the label "0000-01" passes the try block (year
0, month 1) but the date construction then raises an uncaught ValueError, a
failure mode distinct from the InvalidPeriod rejection. -/
theorem C8_counterexample :
    parseMonth "0000-01" = .error .valueError ∧
    PErr.valueError ≠ PErr.http "month must be in YYYY-MM format" := by
  exact ⟨by with_unfolding_all rfl, by simp⟩

theorem C8_witness :
    (⟨2024, 2, 1⟩ : PDate).day = 1 ∧ 1 ≤ (⟨2024, 2, 1⟩ : PDate).month ∧
    (⟨2024, 2, 1⟩ : PDate).month ≤ 12 ∧ 1 ≤ (⟨2024, 2, 1⟩ : PDate).year ∧
    (⟨2024, 2, 1⟩ : PDate).year ≤ 9999 ∧
    (⟨2024, 2, 29⟩ : PDate) =
      ⟨(⟨2024, 2, 1⟩ : PDate).year, (⟨2024, 2, 1⟩ : PDate).month,
        daysInMonth (⟨2024, 2, 1⟩ : PDate).year (⟨2024, 2, 1⟩ : PDate).month⟩ :=
  C8_parse_month.1 "2024-02" ⟨2024, 2, 1⟩ ⟨2024, 2, 29⟩ (by with_unfolding_all rfl)

/-! ## Claim C9 -/

/-- The composite key of a sheet row. -/
def sheetKeyT (r : PayrollSheetEntry) : Nat × PDate × PDate :=
  (r.employee_db_id, r.from_date, r.to_date)

/-- At most one sheet row per (employee, from, to) key — the data-model
invariant the sheet table maintains. -/
def uniqSheets (l : List PayrollSheetEntry) : Prop :=
  l.Pairwise (fun a b => sheetKeyT a ≠ sheetKeyT b)

/-- The last batch entry carrying a given employee id. -/
def lastEntryFor (entries : List SheetEntryIn) (id : Nat) : Option SheetEntryIn :=
  (entries.filter (fun x => decide (x.employee_db_id = id))).getLast?

theorem sheetKeyP_iff (id : Nat) (startD endD : PDate) (r : PayrollSheetEntry) :
    sheetKeyP id startD endD r = true ↔ sheetKeyT r = (id, startD, endD) := by
  simp [sheetKeyP, sheetKeyT, Prod.ext_iff, and_assoc]

theorem getLast?_cons' (a : α) (l : List α) :
    (a :: l).getLast? = some (l.getLast?.getD a) := by
  induction l generalizing a with
  | nil => rfl
  | cons b bs ih => simp [List.getLast?_cons_cons, ih b]

/-- Fusing the two filters of sheetLookup into the key predicate. -/
theorem sheetLookup_filter (l : List PayrollSheetEntry) (startD endD : PDate) (id : Nat) :
    sheetLookup l startD endD id = (l.filter (sheetKeyP id startD endD)).getLast? := by
  unfold sheetLookup
  rw [List.filter_filter]
  congr 1
  apply List.filter_congr
  intro r _
  by_cases h1 : r.employee_db_id = id <;> by_cases h2 : r.from_date = startD <;>
    by_cases h3 : r.to_date = endD <;> simp [sheetKeyP, h1, h2, h3]

/-- With unique keys, the last matching row is the first matching row. -/
theorem sheetLookup_eq_find? (l : List PayrollSheetEntry) (startD endD : PDate) (id : Nat)
    (hu : uniqSheets l) :
    sheetLookup l startD endD id = l.find? (sheetKeyP id startD endD) := by
  rw [sheetLookup_filter]
  induction l with
  | nil => rfl
  | cons x xs ih =>
    rcases List.pairwise_cons.1 hu with ⟨hx, hxs⟩
    by_cases hk : sheetKeyP id startD endD x = true
    · rw [List.filter_cons_of_pos hk, List.find?_cons_of_pos _ hk]
      have hempty : xs.filter (sheetKeyP id startD endD) = [] := by
        rw [List.filter_eq_nil_iff]
        intro a ha hcon
        exact hx a ha (((sheetKeyP_iff id startD endD x).1 hk).trans
          ((sheetKeyP_iff id startD endD a).1 hcon).symm)
      rw [hempty]
      rfl
    · rw [List.filter_cons_of_neg (by simpa using hk), List.find?_cons_of_neg _ (by simpa using hk)]
      exact ih hxs

theorem mem_upsertFirst (p : α → Bool) (f : α → α) (mk : α) (l : List α) (b : α)
    (hb : b ∈ upsertFirst p f mk l) : b = mk ∨ b ∈ l ∨ ∃ x ∈ l, b = f x := by
  induction l with
  | nil =>
    simp only [upsertFirst, List.mem_singleton] at hb
    exact Or.inl hb
  | cons x xs ih =>
    unfold upsertFirst at hb
    by_cases hx : p x = true
    · rw [if_pos hx] at hb
      rcases List.mem_cons.1 hb with rfl | hb
      · exact Or.inr (Or.inr ⟨x, List.mem_cons_self x xs, rfl⟩)
      · exact Or.inr (Or.inl (List.mem_cons.2 (Or.inr hb)))
    · rw [if_neg hx] at hb
      rcases List.mem_cons.1 hb with rfl | hb
      · exact Or.inr (Or.inl (List.mem_cons_self b xs))
      · rcases ih hb with h | h | ⟨x', hx', rfl⟩
        · exact Or.inl h
        · exact Or.inr (Or.inl (List.mem_cons.2 (Or.inr h)))
        · exact Or.inr (Or.inr ⟨x', List.mem_cons.2 (Or.inr hx'), rfl⟩)

theorem find?_upsertFirst_ne (p q : α → Bool) (f : α → α) (mk : α) (l : List α)
    (hq : ∀ x, q (f x) = q x) (hpq : ∀ x, p x = true → q x = false) (hmq : q mk = false) :
    (upsertFirst p f mk l).find? q = l.find? q := by
  induction l with
  | nil => simp [upsertFirst, List.find?, hmq]
  | cons x xs ih =>
    by_cases hx : p x = true
    · rw [show upsertFirst p f mk (x :: xs) = f x :: xs by simp [upsertFirst, hx]]
      rw [List.find?_cons_of_neg _ (by simp [hq x, hpq x hx]),
        List.find?_cons_of_neg _ (by simp [hpq x hx])]
    · rw [show upsertFirst p f mk (x :: xs) = x :: upsertFirst p f mk xs by
        simp [upsertFirst, hx]]
      by_cases hqx : q x = true
      · rw [List.find?_cons_of_pos _ hqx, List.find?_cons_of_pos _ hqx]
      · rw [List.find?_cons_of_neg _ (by simpa using hqx),
          List.find?_cons_of_neg _ (by simpa using hqx), ih]

/-- The sheet upsert of one entry keeps the table's keys unique. -/
theorem uniq_upsertSheetEntry (startD endD : PDate) (acc : List PayrollSheetEntry)
    (ent : SheetEntryIn) (hu : uniqSheets acc) :
    uniqSheets (upsertSheetEntry startD endD acc ent) := by
  unfold upsertSheetEntry
  induction acc with
  | nil => simp [upsertFirst, uniqSheets]
  | cons x xs ih =>
    rcases List.pairwise_cons.1 hu with ⟨hx, hxs⟩
    by_cases hk : sheetKeyP ent.employee_db_id startD endD x = true
    · rw [show upsertFirst (sheetKeyP ent.employee_db_id startD endD) (fun r => applyEntry r ent)
          (applyEntry (blankSheet ent.employee_db_id startD endD) ent) (x :: xs) =
          applyEntry x ent :: xs by simp [upsertFirst, hk]]
      exact List.pairwise_cons.2 ⟨fun b hb => hx b hb, hxs⟩
    · rw [show upsertFirst (sheetKeyP ent.employee_db_id startD endD) (fun r => applyEntry r ent)
          (applyEntry (blankSheet ent.employee_db_id startD endD) ent) (x :: xs) =
          x :: upsertFirst (sheetKeyP ent.employee_db_id startD endD) (fun r => applyEntry r ent)
            (applyEntry (blankSheet ent.employee_db_id startD endD) ent) xs by
        simp [upsertFirst, hk]]
      refine List.pairwise_cons.2 ⟨?_, ih hxs⟩
      intro b hb
      rcases mem_upsertFirst _ _ _ _ b hb with rfl | hmem | ⟨x', hx', rfl⟩
      · intro hcon
        exact hk ((sheetKeyP_iff ent.employee_db_id startD endD x).2 hcon)
      · exact hx b hmem
      · exact hx x' hx'

theorem processEntries_error (startD endD : PDate) (entries : List SheetEntryIn)
    (acc : List PayrollSheetEntry)
    (hbad : ∃ ent ∈ entries, ent.from_date ≠ startD ∨ ent.to_date ≠ endD) :
    processEntries startD endD entries acc =
      .error (.http "entry period must match payload from/to") := by
  induction entries generalizing acc with
  | nil => simp at hbad
  | cons ent rest ih =>
    unfold processEntries
    by_cases hc : ent.from_date = startD ∧ ent.to_date = endD
    · rw [if_pos hc]
      apply ih
      rcases hbad with ⟨x, hx, hxbad⟩
      rcases List.mem_cons.1 hx with rfl | hx
      · tauto
      · exact ⟨x, hx, hxbad⟩
    · rw [if_neg hc]

theorem processEntries_ok (startD endD : PDate) (entries : List SheetEntryIn)
    (acc : List PayrollSheetEntry)
    (hmatch : ∀ ent ∈ entries, ent.from_date = startD ∧ ent.to_date = endD)
    (hu : uniqSheets acc) :
    ∃ res, processEntries startD endD entries acc = .ok res ∧ uniqSheets res ∧
      (∀ id : Nat, (∀ ent ∈ entries, ent.employee_db_id ≠ id) →
        res.find? (sheetKeyP id startD endD) = acc.find? (sheetKeyP id startD endD)) ∧
      (∀ ent0, lastEntryFor entries ent0.employee_db_id = some ent0 →
        res.find? (sheetKeyP ent0.employee_db_id startD endD) =
          some (applyEntry ((acc.find? (sheetKeyP ent0.employee_db_id startD endD)).getD
            (blankSheet ent0.employee_db_id startD endD)) ent0)) := by
  induction entries generalizing acc with
  | nil =>
    refine ⟨acc, rfl, hu, fun id _ => rfl, ?_⟩
    intro ent0 hlast
    simp [lastEntryFor] at hlast
  | cons ent rest ih =>
    have hemismatch := hmatch ent (List.mem_cons_self ent rest)
    have hrestmatch : ∀ x ∈ rest, x.from_date = startD ∧ x.to_date = endD :=
      fun x hx => hmatch x (List.mem_cons.2 (Or.inr hx))
    set acc' := upsertSheetEntry startD endD acc ent with hacc'
    have hu' : uniqSheets acc' := uniq_upsertSheetEntry startD endD acc ent hu
    obtain ⟨res, hres, hures, hother, hlastp⟩ := ih acc' hrestmatch hu'
    have hstep : processEntries startD endD (ent :: rest) acc = .ok res := by
      unfold processEntries
      rw [if_pos hemismatch]
      exact hres
    -- the upsert of the head entry, seen through find?
    have hself : acc'.find? (sheetKeyP ent.employee_db_id startD endD) =
        some (applyEntry ((acc.find? (sheetKeyP ent.employee_db_id startD endD)).getD
          (blankSheet ent.employee_db_id startD endD)) ent) := by
      rw [hacc']
      unfold upsertSheetEntry
      rw [find?_upsertFirst _ _ _ _ (by intro x hx; exact hx)
        (by rw [sheetKeyP_iff]; rfl)]
      cases acc.find? (sheetKeyP ent.employee_db_id startD endD) <;> rfl
    have hacc'_other : ∀ id : Nat, ent.employee_db_id ≠ id →
        acc'.find? (sheetKeyP id startD endD) = acc.find? (sheetKeyP id startD endD) := by
      intro id hne
      rw [hacc']
      unfold upsertSheetEntry
      apply find?_upsertFirst_ne
      · intro x; rfl
      · intro x hx
        rw [sheetKeyP_iff] at hx
        have hxid : x.employee_db_id ≠ id := by
          have h1 : x.employee_db_id = ent.employee_db_id := congrArg Prod.fst hx
          rw [h1]; exact hne
        simp [sheetKeyP, hxid]
      · simp [sheetKeyP, applyEntry, blankSheet, hne]
    refine ⟨res, hstep, hures, ?_, ?_⟩
    · intro id hid
      rw [hother id (fun x hx => hid x (List.mem_cons.2 (Or.inr hx))),
        hacc'_other id (hid ent (List.mem_cons_self ent rest))]
    · intro ent0 hlast
      by_cases hrest0 : (rest.filter
          (fun x => decide (x.employee_db_id = ent0.employee_db_id))).getLast? = none
      · -- ent0 must be the head entry and no later entry shares its id
        have hid : ent.employee_db_id = ent0.employee_db_id ∧ ent = ent0 := by
          unfold lastEntryFor at hlast
          by_cases henth : ent.employee_db_id = ent0.employee_db_id
          · rw [List.filter_cons_of_pos (by simpa using henth), getLast?_cons', hrest0] at hlast
            injection hlast with hlast
            exact ⟨henth, hlast⟩
          · rw [List.filter_cons_of_neg (by simpa using henth)] at hlast
            rw [show (rest.filter (fun x => decide (x.employee_db_id = ent0.employee_db_id))) =
              [] from List.getLast?_eq_none_iff.1 hrest0] at hlast
            simp at hlast
        obtain ⟨hk, hEnt⟩ := hid
        subst hEnt
        have hnone : ∀ x ∈ rest, x.employee_db_id ≠ ent.employee_db_id := by
          intro x hx hcon
          have : x ∈ rest.filter (fun y => decide (y.employee_db_id = ent.employee_db_id)) := by
            rw [List.mem_filter]
            exact ⟨hx, by simpa using hcon⟩
          rw [List.getLast?_eq_none_iff.1 hrest0] at this
          simp at this
        rw [hother ent.employee_db_id hnone, hself]
      · -- the last entry with this id lies in the tail
        have hlast' : lastEntryFor rest ent0.employee_db_id = some ent0 := by
          unfold lastEntryFor at hlast ⊢
          rcases Option.ne_none_iff_exists'.1 hrest0 with ⟨v, hv⟩
          by_cases henth : ent.employee_db_id = ent0.employee_db_id
          · rw [List.filter_cons_of_pos (by simpa using henth), getLast?_cons', hv] at hlast
            injection hlast with hlast
            rw [hv]
            simpa using hlast
          · rwa [List.filter_cons_of_neg (by simpa using henth)] at hlast
        rw [hlastp ent0 hlast']
        by_cases hsame : ent.employee_db_id = ent0.employee_db_id
        · rw [← hsame, hself]
          rfl
        · rw [hacc'_other ent0.employee_db_id hsame]

/-- Claim C9: the bulk sheet-override upsert rejects the whole batch with the
period-mismatch error as soon as any entry's period disagrees with the
payload's declared period — the commit never happens, so no row is created
or updated — and otherwise it succeeds, leaving rows at untouched keys
unchanged and leaving, at each touched (employee, from, to) key, exactly the
full replacement of the previous (or freshly created) row by the last batch
entry for that employee. -/
theorem C9_bulk_upsert (payload : SheetBulkUpsert) (db : DB)
    (hle : pyDateLt payload.to_date payload.from_date = false)
    (hu : uniqSheets db.sheets) :
    ((∃ ent ∈ payload.entries, ent.from_date ≠ payload.from_date ∨
        ent.to_date ≠ payload.to_date) →
      bulkUpsertSheetEntries payload db =
        .error (.http "entry period must match payload from/to")) ∧
    ((∀ ent ∈ payload.entries, ent.from_date = payload.from_date ∧
        ent.to_date = payload.to_date) →
      (bulkUpsertSheetEntries payload db).isOk = true ∧
      ∀ db', bulkUpsertSheetEntries payload db = .ok db' →
        (∀ id : Nat, (∀ ent ∈ payload.entries, ent.employee_db_id ≠ id) →
          sheetLookup db'.sheets payload.from_date payload.to_date id =
            sheetLookup db.sheets payload.from_date payload.to_date id) ∧
        (∀ ent, lastEntryFor payload.entries ent.employee_db_id = some ent →
          sheetLookup db'.sheets payload.from_date payload.to_date ent.employee_db_id =
            some (applyEntry ((sheetLookup db.sheets payload.from_date payload.to_date
                ent.employee_db_id).getD
              (blankSheet ent.employee_db_id payload.from_date payload.to_date)) ent))) := by
  have hif : ¬ (pyDateLt payload.to_date payload.from_date = true) := by simp [hle]
  constructor
  · intro hbad
    unfold bulkUpsertSheetEntries
    rw [if_neg hif, processEntries_error payload.from_date payload.to_date _ _ hbad]
  · intro hgood
    obtain ⟨res, hres, hures, hother, hlastp⟩ :=
      processEntries_ok payload.from_date payload.to_date payload.entries db.sheets hgood hu
    have hok : bulkUpsertSheetEntries payload db = .ok { db with sheets := res } := by
      unfold bulkUpsertSheetEntries
      rw [if_neg hif, hres]
    refine ⟨by rw [hok]; rfl, ?_⟩
    intro db' hdb'
    rw [hok] at hdb'
    injection hdb' with hdb'
    subst hdb'
    constructor
    · intro id hid
      show sheetLookup res payload.from_date payload.to_date id = _
      rw [sheetLookup_eq_find? _ _ _ _ hures, sheetLookup_eq_find? _ _ _ _ hu]
      exact hother id hid
    · intro ent hlast
      show sheetLookup res payload.from_date payload.to_date ent.employee_db_id = _
      rw [sheetLookup_eq_find? _ _ _ _ hures, sheetLookup_eq_find? _ _ _ _ hu]
      exact hlastp ent hlast

/-- C9 witness fixture: one replacement entry for the witness period. -/
def c9Entry : SheetEntryIn :=
  { employee_db_id := 1, from_date := ⟨2024, 2, 1⟩, to_date := ⟨2024, 2, 2⟩,
    pre_days_override := some 3, cur_days_override := none, leave_encashment_days := some 1,
    allow_other := some 50, eobi := some 20, tax := some 30, fine_adv_extra := some 0,
    remarks := some "ok", bank_cash := none }

/-- C9 witness fixture: the payload. -/
def c9Payload : SheetBulkUpsert :=
  { from_date := ⟨2024, 2, 1⟩, to_date := ⟨2024, 2, 2⟩, entries := [c9Entry] }

/-- The witness store after the bulk upsert. -/
def c9Db' : DB := { wDb with sheets := [applyEntry wSheet c9Entry] }

theorem C9_witness :
    (bulkUpsertSheetEntries c9Payload wDb).isOk = true ∧
    sheetLookup c9Db'.sheets ⟨2024, 2, 1⟩ ⟨2024, 2, 2⟩ 1 = some (applyEntry wSheet c9Entry) :=
  have h := (C9_bulk_upsert c9Payload wDb (by decide)
    (by unfold uniqSheets wDb; simp)).2 (by decide)
  ⟨h.1, by
    have h2 := (h.2 c9Db' (by with_unfolding_all rfl)).2 c9Entry (by decide)
    exact h2.trans (by with_unfolding_all rfl)⟩

/-! ## Claim C10 -/

/-- Two attendance records agreeing on every field except overtime_minutes. -/
def attAgreeExceptOtMin (a b : AttendanceRecord) : Prop :=
  a.employee_id = b.employee_id ∧ a.date = b.date ∧ a.status = b.status ∧
  a.leave_type = b.leave_type ∧ a.overtime_rate = b.overtime_rate ∧
  a.late_minutes = b.late_minutes ∧ a.late_deduction = b.late_deduction ∧
  a.fine_amount = b.fine_amount

/-- Overtime-minutes contribution of one record: counted only when both the
minutes and the rate are truthy. -/
def otContrib (a : AttendanceRecord) : Int :=
  if truthyI a.overtime_minutes && truthyQ a.overtime_rate then a.overtime_minutes.getD 0
  else 0

/-- Overtime-minutes contribution of one walked day. -/
def otContribO (a? : Option AttendanceRecord) : Int :=
  match a? with
  | none => 0
  | some a => otContrib a

/-- Total overtime minutes of a record list. -/
def otMinSum (l : List AttendanceRecord) : Int := (l.map otContrib).sum

/-- Total overtime minutes of a walked-day list. -/
def otMinSumO (l : List (Option AttendanceRecord)) : Int := (l.map otContribO).sum

theorem stepMoneyCore_ot_falsy (a : AttendanceRecord) (acc : AttAcc)
    (h : truthyQ a.overtime_rate = false) :
    (stepMoneyCore a acc).overtime_minutes = acc.overtime_minutes ∧
    (stepMoneyCore a acc).overtime_pay = acc.overtime_pay ∧
    (stepMoneyCore a acc).overtime_rate = acc.overtime_rate := by
  unfold stepMoneyCore
  split_ifs <;> first
    | exact ⟨rfl, rfl, rfl⟩
    | simp_all

theorem stepMoneyCore_otmin (a : AttendanceRecord) (acc : AttAcc) :
    (stepMoneyCore a acc).overtime_minutes = acc.overtime_minutes + otContrib a := by
  simp only [stepMoneyCore, otContrib]
  split_ifs <;> simp

theorem stepMonth_otmin (acc : AttAcc) (a : AttendanceRecord) :
    (stepMonth acc a).overtime_minutes = acc.overtime_minutes + otContrib a := by
  show (stepMoneyCore a _).overtime_minutes = _
  rw [stepMoneyCore_otmin]
  congr 1
  split_ifs <;> rfl

theorem stepRange1_otmin (a? : Option AttendanceRecord) (acc : AttAcc) :
    (stepRange1 a? acc).overtime_minutes = acc.overtime_minutes + otContribO a? := by
  cases a? with
  | none =>
    show (stepCount1 none acc).overtime_minutes = _
    have hcnt0 : (stepCount1 none acc).overtime_minutes = acc.overtime_minutes := by
      simp only [stepCount1]
      split_ifs <;> rfl
    rw [hcnt0]
    simp [otContribO]
  | some a =>
    show (stepFine a (stepMoneyCore a (stepCount1 (some a) acc))).overtime_minutes = _
    have hfine : ∀ acc2, (stepFine a acc2).overtime_minutes = acc2.overtime_minutes := by
      intro acc2
      unfold stepFine
      split_ifs <;> rfl
    rw [hfine, stepMoneyCore_otmin]
    have hcnt : (stepCount1 (some a) acc).overtime_minutes = acc.overtime_minutes := by
      simp only [stepCount1]
      split_ifs <;> rfl
    rw [hcnt]
    rfl

theorem foldMonth_otmin (l : List AttendanceRecord) (acc : AttAcc) :
    (l.foldl stepMonth acc).overtime_minutes = acc.overtime_minutes + otMinSum l := by
  induction l generalizing acc with
  | nil => simp [otMinSum]
  | cons x xs ih =>
    rw [List.foldl_cons, ih, stepMonth_otmin]
    simp [otMinSum]
    ring

theorem foldRange1_otmin (l : List (Option AttendanceRecord)) (acc : AttAcc) :
    ((l.foldl (fun acc a? => stepRange1 a? acc) acc).overtime_minutes =
      acc.overtime_minutes + otMinSumO l) := by
  induction l generalizing acc with
  | nil => simp [otMinSumO]
  | cons x xs ih =>
    rw [List.foldl_cons, ih, stepRange1_otmin]
    simp [otMinSumO]
    ring

/-- Fields preserved by any admissible minute modification. -/
theorem attKeep_of_hm (m : AttendanceRecord → AttendanceRecord)
    (hm : ∀ a, m a = a ∨ (truthyQ a.overtime_rate = false ∧ attAgreeExceptOtMin (m a) a)) :
    ∀ a, (m a).employee_id = a.employee_id ∧ (m a).date = a.date := by
  intro a
  rcases hm a with h | ⟨_, h1, h2, _⟩
  · rw [h]; exact ⟨rfl, rfl⟩
  · exact ⟨h1, h2⟩

theorem stepMoneyCore_congr (a a' : AttendanceRecord) (acc : AttAcc)
    (hagree : attAgreeExceptOtMin a' a) (hr : truthyQ a.overtime_rate = false) :
    stepMoneyCore a' acc = stepMoneyCore a acc := by
  obtain ⟨h1, h2, h3, h4, h5, h6, h7, h8⟩ := hagree
  unfold stepMoneyCore
  rw [h5, h6, h7]
  split_ifs <;> first
    | rfl
    | simp_all

theorem stepMonth_congr (acc : AttAcc) (a a' : AttendanceRecord)
    (hagree : attAgreeExceptOtMin a' a) (hr : truthyQ a.overtime_rate = false) :
    stepMonth acc a' = stepMonth acc a := by
  obtain ⟨h1, h2, h3, h4, h5, h6, h7, h8⟩ := hagree
  unfold stepMonth
  rw [h3, h4]
  exact stepMoneyCore_congr a a' _ ⟨h1, h2, h3, h4, h5, h6, h7, h8⟩ hr

theorem stepFine_congr (a a' : AttendanceRecord) (acc : AttAcc)
    (hagree : attAgreeExceptOtMin a' a) : stepFine a' acc = stepFine a acc := by
  obtain ⟨h1, h2, h3, h4, h5, h6, h7, h8⟩ := hagree
  unfold stepFine
  rw [h8]

theorem stepRange1_congr (acc : AttAcc) (a a' : AttendanceRecord)
    (hagree : attAgreeExceptOtMin a' a) (hr : truthyQ a.overtime_rate = false) :
    stepRange1 (some a') acc = stepRange1 (some a) acc := by
  obtain ⟨h1, h2, h3, h4, h5, h6, h7, h8⟩ := hagree
  show stepFine a' (stepMoneyCore a' (stepCount1 (some a') acc)) = _
  have hcnt : stepCount1 (some a') acc = stepCount1 (some a) acc := by
    simp only [stepCount1]
    rw [h3, h4]
  rw [hcnt, stepMoneyCore_congr a a' _ ⟨h1, h2, h3, h4, h5, h6, h7, h8⟩ hr,
    stepFine_congr a a' _ ⟨h1, h2, h3, h4, h5, h6, h7, h8⟩]
  rfl

theorem stepRange2_congr (acc : AttAcc) (a a' : AttendanceRecord)
    (hagree : attAgreeExceptOtMin a' a) (hr : truthyQ a.overtime_rate = false) :
    stepRange2 (some a') acc = stepRange2 (some a) acc := by
  obtain ⟨h1, h2, h3, h4, h5, h6, h7, h8⟩ := hagree
  simp only [stepRange2]
  rw [h3, h4]
  rw [stepMoneyCore_congr a a' _ ⟨h1, h2, h3, h4, h5, h6, h7, h8⟩ hr]
  have hfe : ∀ acc2, stepFine a' acc2 = stepFine a acc2 :=
    fun acc2 => stepFine_congr a a' acc2 ⟨h1, h2, h3, h4, h5, h6, h7, h8⟩
  split_ifs <;> rw [hfe]

theorem foldl_congr_mem {f g : β → α → β} (l : List α) (init : β)
    (h : ∀ a ∈ l, ∀ acc, f acc a = g acc a) : l.foldl f init = l.foldl g init := by
  induction l generalizing init with
  | nil => rfl
  | cons x xs ih =>
    rw [List.foldl_cons, List.foldl_cons, h x (List.mem_cons_self x xs)]
    exact ih _ (fun a ha acc => h a (List.mem_cons.2 (Or.inr ha)) acc)

theorem stepRange2_otmin (a? : Option AttendanceRecord) (acc : AttAcc) :
    (stepRange2 a? acc).overtime_minutes = acc.overtime_minutes + otContribO a? := by
  cases a? with
  | none =>
    show acc.overtime_minutes = _
    simp [otContribO]
  | some a =>
    show (stepFine a (stepMoneyCore a _)).overtime_minutes = _
    simp only [otContribO]
    have hfine : ∀ acc2, (stepFine a acc2).overtime_minutes = acc2.overtime_minutes := by
      intro acc2
      unfold stepFine
      split_ifs <;> rfl
    rw [hfine, stepMoneyCore_otmin]
    congr 1
    split_ifs <;> rfl

theorem foldRange2_otmin (l : List (Option AttendanceRecord)) (acc : AttAcc) :
    ((l.foldl (fun acc a? => stepRange2 a? acc) acc).overtime_minutes =
      acc.overtime_minutes + otMinSumO l) := by
  induction l generalizing acc with
  | nil => simp [otMinSumO]
  | cons x xs ih =>
    rw [List.foldl_cons, ih, stepRange2_otmin]
    simp [otMinSumO]
    ring

/-! Non-interference of falsy-rate overtime minutes with the three reports:
mapping any modification that touches only the overtime minutes of records
whose overtime rate is falsy leaves every report unchanged. -/

theorem attInRange_map (m : AttendanceRecord → AttendanceRecord)
    (hm : ∀ a, m a = a ∨ (truthyQ a.overtime_rate = false ∧ attAgreeExceptOtMin (m a) a))
    (atts : List AttendanceRecord) (startD endD : PDate) :
    attInRange (atts.map m) startD endD = (attInRange atts startD endD).map m := by
  unfold attInRange
  rw [List.filter_map m]
  have hP : ((fun a : AttendanceRecord => pyDateLe startD a.date && pyDateLe a.date endD) ∘ m) =
      (fun a : AttendanceRecord => pyDateLe startD a.date && pyDateLe a.date endD) := by
    funext a
    obtain ⟨_, h2⟩ := attKeep_of_hm m hm a
    simp [Function.comp, h2]
  rw [hP]

theorem monthAttFor_map (m : AttendanceRecord → AttendanceRecord)
    (hm : ∀ a, m a = a ∨ (truthyQ a.overtime_rate = false ∧ attAgreeExceptOtMin (m a) a))
    (atts : List AttendanceRecord) (empId : String) :
    monthAttFor (atts.map m) empId = (monthAttFor atts empId).map m := by
  unfold monthAttFor
  rw [List.filter_map m]
  have hP : ((fun a : AttendanceRecord => a.employee_id == some empId) ∘ m) =
      (fun a : AttendanceRecord => a.employee_id == some empId) := by
    funext a
    obtain ⟨h1, _⟩ := attKeep_of_hm m hm a
    simp [Function.comp, h1]
  rw [hP]

theorem attLookup_map (m : AttendanceRecord → AttendanceRecord)
    (hm : ∀ a, m a = a ∨ (truthyQ a.overtime_rate = false ∧ attAgreeExceptOtMin (m a) a))
    (atts : List AttendanceRecord) (empId : String) (d : PDate) :
    attLookup (atts.map m) empId d = (attLookup atts empId d).map m := by
  unfold attLookup
  rw [List.filter_map m, List.filter_map m, List.getLast?_map]
  have hP : ((fun a : AttendanceRecord => pyStrip (pyOrStr a.employee_id "") == empId) ∘ m) =
      (fun a : AttendanceRecord => pyStrip (pyOrStr a.employee_id "") == empId) := by
    funext a
    obtain ⟨h1, _⟩ := attKeep_of_hm m hm a
    simp [Function.comp, h1]
  have hQ : ((fun a : AttendanceRecord => decide (a.date = d)) ∘ m) =
      (fun a : AttendanceRecord => decide (a.date = d)) := by
    funext a
    obtain ⟨_, h2⟩ := attKeep_of_hm m hm a
    simp [Function.comp, h2]
  rw [hP, hQ]

theorem attSeq_map (m : AttendanceRecord → AttendanceRecord)
    (hm : ∀ a, m a = a ∨ (truthyQ a.overtime_rate = false ∧ attAgreeExceptOtMin (m a) a))
    (atts : List AttendanceRecord) (empId : String) (dates : List PDate) :
    attSeq (atts.map m) empId dates = (attSeq atts empId dates).map (Option.map m) := by
  unfold attSeq
  rw [List.map_map]
  apply List.map_congr_left
  intro d _
  exact attLookup_map m hm atts empId d

theorem aggMonth_map (m : AttendanceRecord → AttendanceRecord)
    (hm : ∀ a, m a = a ∨ (truthyQ a.overtime_rate = false ∧ attAgreeExceptOtMin (m a) a))
    (atts : List AttendanceRecord) (empId : String) :
    aggMonth (atts.map m) empId = aggMonth atts empId := by
  unfold aggMonth
  rw [monthAttFor_map m hm, List.foldl_map]
  apply foldl_congr_mem
  intro a _ acc
  rcases hm a with h | ⟨hr, hag⟩
  · rw [h]
  · exact stepMonth_congr acc a (m a) hag hr

theorem aggRange1_map (m : AttendanceRecord → AttendanceRecord)
    (hm : ∀ a, m a = a ∨ (truthyQ a.overtime_rate = false ∧ attAgreeExceptOtMin (m a) a))
    (atts : List AttendanceRecord) (empId : String) (dates : List PDate) :
    aggRange1 (atts.map m) empId dates = aggRange1 atts empId dates := by
  unfold aggRange1
  rw [attSeq_map m hm, List.foldl_map]
  apply foldl_congr_mem
  intro a? _ acc
  cases a? with
  | none => rfl
  | some a =>
    rcases hm a with h | ⟨hr, hag⟩
    · show stepRange1 (some (m a)) acc = stepRange1 (some a) acc
      rw [h]
    · exact stepRange1_congr acc a (m a) hag hr

theorem aggRange2_map (m : AttendanceRecord → AttendanceRecord)
    (hm : ∀ a, m a = a ∨ (truthyQ a.overtime_rate = false ∧ attAgreeExceptOtMin (m a) a))
    (atts : List AttendanceRecord) (empId : String) (dates : List PDate) :
    aggRange2 (atts.map m) empId dates = aggRange2 atts empId dates := by
  unfold aggRange2
  rw [attSeq_map m hm, List.foldl_map]
  apply foldl_congr_mem
  intro a? _ acc
  cases a? with
  | none => rfl
  | some a =>
    rcases hm a with h | ⟨hr, hag⟩
    · show stepRange2 (some (m a)) acc = stepRange2 (some a) acc
      rw [h]
    · exact stepRange2_congr acc a (m a) hag hr

theorem stepDates2_congr (endM : Int) (pc : List String × List String) (d : PDate)
    (a a' : AttendanceRecord) (hag : attAgreeExceptOtMin a' a) :
    stepDates2 endM pc (d, some a') = stepDates2 endM pc (d, some a) := by
  obtain ⟨h1, h2, h3, h4, h5, h6, h7, h8⟩ := hag
  simp only [stepDates2]
  rw [h3]

theorem presentDates2_map (m : AttendanceRecord → AttendanceRecord)
    (hm : ∀ a, m a = a ∨ (truthyQ a.overtime_rate = false ∧ attAgreeExceptOtMin (m a) a))
    (atts : List AttendanceRecord) (empId : String) (dates : List PDate) (endM : Int) :
    presentDates2 (atts.map m) empId dates endM = presentDates2 atts empId dates endM := by
  unfold presentDates2
  rw [attSeq_map m hm, List.zip_map_right, List.foldl_map]
  apply foldl_congr_mem
  intro da _ pc
  cases da with
  | mk d a? =>
    cases a? with
    | none => rfl
    | some a =>
      rcases hm a with h | ⟨hr, hag⟩
      · show stepDates2 endM pc (d, some (m a)) = stepDates2 endM pc (d, some a)
        rw [h]
      · exact stepDates2_congr endM pc d a (m a) hag

theorem rowMonth_map (m : AttendanceRecord → AttendanceRecord)
    (hm : ∀ a, m a = a ∨ (truthyQ a.overtime_rate = false ∧ attAgreeExceptOtMin (m a) a))
    (label : String) (atts : List AttendanceRecord) (advs : List AdvanceDeduction)
    (stats : List PaymentStatus) (e : Employee) :
    rowMonth label (atts.map m) advs stats e = rowMonth label atts advs stats e := by
  simp only [rowMonth]
  rw [aggMonth_map m hm]

theorem rowRange1Core_map (m : AttendanceRecord → AttendanceRecord)
    (hm : ∀ a, m a = a ∨ (truthyQ a.overtime_rate = false ∧ attAgreeExceptOtMin (m a) a))
    (startD endD : PDate) (wd : Int) (label : String) (atts : List AttendanceRecord)
    (advs : List AdvanceDeduction) (stats : List PaymentStatus) (e : Employee)
    (sheet : Option PayrollSheetEntry) :
    rowRange1Core startD endD wd label (atts.map m) advs stats e sheet =
      rowRange1Core startD endD wd label atts advs stats e sheet := by
  simp only [rowRange1Core]
  rw [aggRange1_map m hm]

theorem rowRange2Core_map (m : AttendanceRecord → AttendanceRecord)
    (hm : ∀ a, m a = a ∨ (truthyQ a.overtime_rate = false ∧ attAgreeExceptOtMin (m a) a))
    (startD endD : PDate) (wd : Int) (label : String) (atts : List AttendanceRecord)
    (advs : List AdvanceDeduction) (e : Employee) (sheet : Option PayrollSheetEntry) :
    rowRange2Core startD endD wd label (atts.map m) advs e sheet =
      rowRange2Core startD endD wd label atts advs e sheet := by
  simp only [rowRange2Core]
  rw [aggRange2_map m hm, presentDates2_map m hm]

theorem rowRange1_map (m : AttendanceRecord → AttendanceRecord)
    (hm : ∀ a, m a = a ∨ (truthyQ a.overtime_rate = false ∧ attAgreeExceptOtMin (m a) a))
    (startD endD : PDate) (wd : Int) (label : String) (atts : List AttendanceRecord)
    (sheets : List PayrollSheetEntry) (advs : List AdvanceDeduction)
    (stats : List PaymentStatus) (e : Employee) :
    rowRange1 startD endD wd label (atts.map m) sheets advs stats e =
      rowRange1 startD endD wd label atts sheets advs stats e := by
  unfold rowRange1
  exact rowRange1Core_map m hm startD endD wd label atts advs stats e _

theorem rowRange2_map (m : AttendanceRecord → AttendanceRecord)
    (hm : ∀ a, m a = a ∨ (truthyQ a.overtime_rate = false ∧ attAgreeExceptOtMin (m a) a))
    (startD endD : PDate) (wd : Int) (label : String) (atts : List AttendanceRecord)
    (sheets : List PayrollSheetEntry) (advs : List AdvanceDeduction) (e : Employee) :
    rowRange2 startD endD wd label (atts.map m) sheets advs e =
      rowRange2 startD endD wd label atts sheets advs e := by
  unfold rowRange2
  exact rowRange2Core_map m hm startD endD wd label atts advs e _

theorem mkReportM_congr (label : String) (rows rows' : List MonthRow) (h : rows' = rows) :
    ReportM.mk label
      (SummaryM.mk label rows'.length ((rows'.map (fun r => r.gross_pay)).sum)
        ((rows'.map (fun r => r.net_pay)).sum)) rows' =
    ReportM.mk label
      (SummaryM.mk label rows.length ((rows.map (fun r => r.gross_pay)).sum)
        ((rows.map (fun r => r.net_pay)).sum)) rows := by
  rw [h]

theorem mkReport1_congr (label : String) (rows rows' : List Row1) (h : rows' = rows) :
    Report1.mk label
      (SummaryM.mk label rows'.length ((rows'.map (fun r => r.gross_pay)).sum)
        ((rows'.map (fun r => r.net_pay)).sum)) rows' =
    Report1.mk label
      (SummaryM.mk label rows.length ((rows.map (fun r => r.gross_pay)).sum)
        ((rows.map (fun r => r.net_pay)).sum)) rows := by
  rw [h]

theorem mkReport2_congr (label fromS toS : String) (wd : Int) (rows rows' : List Row2)
    (h : rows' = rows) :
    Report2.mk label
      (Summary2.mk label fromS toS wd rows'.length ((rows'.map (fun r => r.gross_pay)).sum)
        ((rows'.map (fun r => r.net_pay)).sum) ((rows'.map (fun r => r.presents_total)).sum))
      rows' =
    Report2.mk label
      (Summary2.mk label fromS toS wd rows.length ((rows.map (fun r => r.gross_pay)).sum)
        ((rows.map (fun r => r.net_pay)).sum) ((rows.map (fun r => r.presents_total)).sum))
      rows := by
  rw [h]

theorem buildMonth_map_att (m : AttendanceRecord → AttendanceRecord)
    (hm : ∀ a, m a = a ∨ (truthyQ a.overtime_rate = false ∧ attAgreeExceptOtMin (m a) a))
    (startD endD : PDate) (label : String) (db : DB) :
    buildMonth startD endD label { db with attendance := db.attendance.map m } =
      buildMonth startD endD label db := by
  have hrows : (sortByLt serialStrLt (db.employees.filter (eligible endD))).map
      (rowMonth label (attInRange (db.attendance.map m) startD endD) db.advances
        db.paymentStatuses) =
      (sortByLt serialStrLt (db.employees.filter (eligible endD))).map
        (rowMonth label (attInRange db.attendance startD endD) db.advances
          db.paymentStatuses) := by
    rw [attInRange_map m hm]
    apply List.map_congr_left
    intro e _
    exact rowMonth_map m hm label (attInRange db.attendance startD endD) db.advances
      db.paymentStatuses e
  exact mkReportM_congr label _ _ hrows

theorem buildRange1_map_att (m : AttendanceRecord → AttendanceRecord)
    (hm : ∀ a, m a = a ∨ (truthyQ a.overtime_rate = false ∧ attAgreeExceptOtMin (m a) a))
    (startD endD : PDate) (mo? : Option String) (db : DB) :
    buildRange1 startD endD mo? { db with attendance := db.attendance.map m } =
      buildRange1 startD endD mo? db := by
  have hrows : (sortByLt empLt (db.employees.filter (eligible endD))).map
      (rowRange1 startD endD (daysInclusive startD endD) (pyOrStr mo? (monthLabel endD))
        (attInRange (db.attendance.map m) startD endD) db.sheets db.advances
        db.paymentStatuses) =
      (sortByLt empLt (db.employees.filter (eligible endD))).map
        (rowRange1 startD endD (daysInclusive startD endD) (pyOrStr mo? (monthLabel endD))
          (attInRange db.attendance startD endD) db.sheets db.advances db.paymentStatuses) := by
    rw [attInRange_map m hm]
    apply List.map_congr_left
    intro e _
    exact rowRange1_map m hm startD endD (daysInclusive startD endD)
      (pyOrStr mo? (monthLabel endD)) (attInRange db.attendance startD endD) db.sheets
      db.advances db.paymentStatuses e
  exact mkReport1_congr _ _ _ hrows

theorem buildRange2_map_att (m : AttendanceRecord → AttendanceRecord)
    (hm : ∀ a, m a = a ∨ (truthyQ a.overtime_rate = false ∧ attAgreeExceptOtMin (m a) a))
    (startD endD : PDate) (mo? : Option String) (db : DB) :
    buildRange2 startD endD mo? { db with attendance := db.attendance.map m } =
      buildRange2 startD endD mo? db := by
  have hrows : (sortByLt empLt (db.employees.filter (eligible endD))).map
      (rowRange2 startD endD (daysInclusive startD endD) (pyOrStr mo? (monthLabel endD))
        (attInRange (db.attendance.map m) startD endD) db.sheets db.advances) =
      (sortByLt empLt (db.employees.filter (eligible endD))).map
        (rowRange2 startD endD (daysInclusive startD endD) (pyOrStr mo? (monthLabel endD))
          (attInRange db.attendance startD endD) db.sheets db.advances) := by
    rw [attInRange_map m hm]
    apply List.map_congr_left
    intro e _
    exact rowRange2_map m hm startD endD (daysInclusive startD endD)
      (pyOrStr mo? (monthLabel endD)) (attInRange db.attendance startD endD) db.sheets
      db.advances e
  exact mkReport2_congr _ _ _ _ _ _ hrows

theorem payrollReport_map_att (m : AttendanceRecord → AttendanceRecord)
    (hm : ∀ a, m a = a ∨ (truthyQ a.overtime_rate = false ∧ attAgreeExceptOtMin (m a) a))
    (mo : String) (db : DB) :
    payrollReport mo { db with attendance := db.attendance.map m } = payrollReport mo db := by
  unfold payrollReport
  cases parseMonth mo with
  | error er => rfl
  | ok p =>
    cases p with
    | mk startD endD =>
      show Except.ok (buildMonth startD endD mo { db with attendance := db.attendance.map m }) =
        Except.ok (buildMonth startD endD mo db)
      rw [buildMonth_map_att m hm]

theorem payrollRangeReport_map_att (m : AttendanceRecord → AttendanceRecord)
    (hm : ∀ a, m a = a ∨ (truthyQ a.overtime_rate = false ∧ attAgreeExceptOtMin (m a) a))
    (fd td : String) (mo? : Option String) (db : DB) :
    payrollRangeReport fd td mo? { db with attendance := db.attendance.map m } =
      payrollRangeReport fd td mo? db := by
  unfold payrollRangeReport
  cases parseDate fd "from_date" with
  | error er => rfl
  | ok startD =>
    cases parseDate td "to_date" with
    | error er => rfl
    | ok endD =>
      show (if pyDateLt endD startD then
          (Except.error (PErr.http "from_date must be <= to_date") : Except PErr Report1)
        else Except.ok
          (buildRange1 startD endD mo? { db with attendance := db.attendance.map m })) =
        (if pyDateLt endD startD then
          Except.error (PErr.http "from_date must be <= to_date")
        else Except.ok (buildRange1 startD endD mo? db))
      split_ifs with h
      · rfl
      · rw [buildRange1_map_att m hm]

theorem payroll2RangeReport_map_att (m : AttendanceRecord → AttendanceRecord)
    (hm : ∀ a, m a = a ∨ (truthyQ a.overtime_rate = false ∧ attAgreeExceptOtMin (m a) a))
    (fd td : String) (mo? : Option String) (db : DB) :
    payroll2RangeReport fd td mo? { db with attendance := db.attendance.map m } =
      payroll2RangeReport fd td mo? db := by
  unfold payroll2RangeReport
  cases parseDate fd "from_date" with
  | error er => rfl
  | ok startD =>
    cases parseDate td "to_date" with
    | error er => rfl
    | ok endD =>
      show (if pyDateLt endD startD then
          (Except.error (PErr.http "from_date must be <= to_date") : Except PErr Report2)
        else Except.ok
          (buildRange2 startD endD mo? { db with attendance := db.attendance.map m })) =
        (if pyDateLt endD startD then
          Except.error (PErr.http "from_date must be <= to_date")
        else Except.ok (buildRange2 startD endD mo? db))
      split_ifs with h
      · rfl
      · rw [buildRange2_map_att m hm]

/-- Witness fixture: a record with 100 overtime minutes but no overtime rate. -/
def c10Att : AttendanceRecord :=
  { employee_id := some "E1", date := ⟨2024, 2, 5⟩, status := some "Present",
    leave_type := none, overtime_minutes := some 100, overtime_rate := none,
    late_minutes := none, late_deduction := none, fine_amount := none }

/-- Witness fixture: one employee. -/
def c10Emp : Employee :=
  { id := 1, serial_no := some "1", fss_no := some "E1", eobi_no := none,
    name := some "Test", category := none, salary := some "31000", created_at := none }

/-- Witness fixture: store with the one employee and the one record. -/
def c10Db : DB :=
  { employees := [c10Emp], attendance := [c10Att], sheets := [], advances := [],
    paymentStatuses := [] }

/-- Witness fixture: rewrite the overtime minutes of every falsy-rate record. -/
def c10m (a : AttendanceRecord) : AttendanceRecord :=
  if truthyQ a.overtime_rate then a else { a with overtime_minutes := some 999 }

theorem c10m_admissible : ∀ a, c10m a = a ∨
    (truthyQ a.overtime_rate = false ∧ attAgreeExceptOtMin (c10m a) a) := by
  intro a
  cases hr : truthyQ a.overtime_rate with
  | true =>
    left
    simp [c10m, hr]
  | false =>
    right
    refine ⟨rfl, ?_⟩
    have hma : c10m a = { a with overtime_minutes := some 999 } := by
      simp [c10m, hr]
    rw [hma]
    exact ⟨rfl, rfl, rfl, rfl, rfl, rfl, rfl, rfl⟩

/-- Claim C10: every engine's overtime guard requires both truthy overtime
minutes and a truthy overtime rate. A record whose overtime rate is zero or
missing leaves the accumulated overtime minutes, overtime pay and overtime
rate unchanged; the overtime_minutes of each engine equals the sum of the
minutes of exactly those records where both fields are truthy; and rewriting
the overtime minutes of falsy-rate records changes none of the three report
endpoints (hence neither overtime_pay nor gross_pay of any row). -/
theorem C10_overtime_guard (db : DB) (m : AttendanceRecord → AttendanceRecord)
    (hm : ∀ a, m a = a ∨ (truthyQ a.overtime_rate = false ∧ attAgreeExceptOtMin (m a) a)) :
    (∀ a acc, truthyQ a.overtime_rate = false →
      (stepMoneyCore a acc).overtime_minutes = acc.overtime_minutes ∧
      (stepMoneyCore a acc).overtime_pay = acc.overtime_pay ∧
      (stepMoneyCore a acc).overtime_rate = acc.overtime_rate) ∧
    (∀ atts empId, (aggMonth atts empId).overtime_minutes =
      otMinSum (monthAttFor atts empId)) ∧
    (∀ atts empId dates, (aggRange1 atts empId dates).overtime_minutes =
      otMinSumO (attSeq atts empId dates)) ∧
    (∀ atts empId dates, (aggRange2 atts empId dates).overtime_minutes =
      otMinSumO (attSeq atts empId dates)) ∧
    (∀ mo, payrollReport mo { db with attendance := db.attendance.map m } =
      payrollReport mo db) ∧
    (∀ fd td mo?, payrollRangeReport fd td mo?
        { db with attendance := db.attendance.map m } =
      payrollRangeReport fd td mo? db) ∧
    (∀ fd td mo?, payroll2RangeReport fd td mo?
        { db with attendance := db.attendance.map m } =
      payroll2RangeReport fd td mo? db) := by
  refine ⟨fun a acc h => stepMoneyCore_ot_falsy a acc h, ?_, ?_, ?_,
    fun mo => payrollReport_map_att m hm mo db,
    fun fd td mo? => payrollRangeReport_map_att m hm fd td mo? db,
    fun fd td mo? => payroll2RangeReport_map_att m hm fd td mo? db⟩
  · intro atts empId
    show ((monthAttFor atts empId).foldl stepMonth initAcc).overtime_minutes = _
    rw [foldMonth_otmin]
    simp [show initAcc.overtime_minutes = 0 from rfl]
  · intro atts empId dates
    show ((attSeq atts empId dates).foldl (fun acc a? => stepRange1 a? acc)
      initAcc).overtime_minutes = _
    rw [foldRange1_otmin]
    simp [show initAcc.overtime_minutes = 0 from rfl]
  · intro atts empId dates
    show ((attSeq atts empId dates).foldl (fun acc a? => stepRange2 a? acc)
      initAcc).overtime_minutes = _
    rw [foldRange2_otmin]
    simp [show initAcc.overtime_minutes = 0 from rfl]

/-- Witness for C10 at a concrete store: the witness record has 100 overtime
minutes but no rate, it contributes nothing to the month engine's overtime
minutes, and rewriting the minutes of every falsy-rate record leaves the
calendar-month report unchanged. -/
theorem C10_witness :
    truthyQ c10Att.overtime_rate = false ∧
    truthyI c10Att.overtime_minutes = true ∧
    (aggMonth [c10Att] "E1").overtime_minutes = 0 ∧
    payrollReport "2024-02" { c10Db with attendance := c10Db.attendance.map c10m } =
      payrollReport "2024-02" c10Db := by
  have h := C10_overtime_guard c10Db c10m c10m_admissible
  refine ⟨by decide, by decide, ?_, h.2.2.2.2.1 "2024-02"⟩
  rw [h.2.1 [c10Att] "E1"]
  decide

end FlashPayroll
